import Mathlib

/-!
Shallow embedding of the lox-rs tree-walking interpreter.

The crate's module tree (src/lib.rs) declares the modules `ast`, `function`,
`function_trait`, `interpreter`, `lox_class`, `parser`, `resolver`,
`tokenizer` and `visit`; the sources `src/parser/parser.rs`,
`src/parser/error.rs`, `src/lexer.rs` and `src/token.rs` are not part of that
tree, so the definitions below are transcribed from the files the crate
actually uses: `tokenizer.rs` (lexer), `parser.rs` (recursive-descent
parser), `resolver.rs`, `ast.rs`, `lox_class.rs`, `lox_instance.rs`,
`interpreter.rs` and the `Run` branch of `main.rs`.

Modelling conventions:
 * `Rc<RefCell<T>>` cells (environments and instance field maps) are
   represented by indices into explicit heaps carried in the interpreter
   state; cloning a handle copies the index, so clones share the cell.
 * `HashMap<String, V>` is represented by an association list with
   insert-replace semantics (`aListInsert` / `aListLookup`): one binding per
   key, exactly the operations the source uses (insert, get, contains_key).
 * `f64` is represented by an exact (unnormalised) rational `F64`; every
   number occurring in the verified properties is a small integer, on which
   f64 arithmetic is exact.  Rounding, NaN, infinities and division by zero
   are outside every claim and are not modelled.
 * Recursion that is not structural in Rust (the token loops, the parser,
   the resolver and the evaluator) takes an explicit fuel parameter;
   exhausting it yields the distinguished result `fuel`, which corresponds
   to no Rust behaviour (the Rust loops terminate on all inputs exercised
   here, or diverge).  A `crash` result models a Rust panic
   (`unwrap()` on `None`, `unreachable!()`).
-/

namespace LoxRs

/-! ## Association lists: the model of `HashMap<String, V>` -/

/-- Model of `HashMap::get` (first binding of the key). -/
def aListLookup {α : Type} : List (String × α) → String → Option α
  | [], _ => none
  | (k, v) :: rest, key => if k = key then some v else aListLookup rest key

/-- Model of `HashMap::insert`: replace the binding if the key is present, else append. -/
def aListInsert {α : Type} : List (String × α) → String → α → List (String × α)
  | [], key, v => [(key, v)]
  | (k, w) :: rest, key, v =>
    if k = key then (key, v) :: rest else (k, w) :: aListInsert rest key v

/-- Replace the element at index `i` (no-op out of range); used for the
explicit heaps that model `RefCell` interiors. -/
def listModify {α : Type} (f : α → α) : List α → Nat → List α
  | [], _ => []
  | a :: rest, 0 => f a :: rest
  | a :: rest, i + 1 => a :: listModify f rest i

/-- Vec::last_mut-style update of the last element (no-op when empty). -/
def modifyLast {α : Type} (f : α → α) : List α → List α
  | [] => []
  | [a] => [f a]
  | a :: b :: rest => a :: modifyLast f (b :: rest)

/-- Model of `iter().position(p)` on a list. -/
def myFindIdx {α : Type} (p : α → Bool) : List α → Option Nat
  | [] => none
  | a :: rest => if p a then some 0 else (myFindIdx p rest).map (· + 1)

/-! ## `F64`: exact rational model of Rust's `f64`

All numeric values reached by the verified claims are small integers, for
which `f64` arithmetic coincides with exact rational arithmetic.  The
denominator is positive for every value the lexer or the interpreter
constructs (decimal literals have denominator `10^k`; `add`/`sub`/`mul`
multiply denominators; `div` normalises the sign and produces denominator 0
only on division by zero, which no claim exercises). -/

structure F64 where
  num : Int
  den : Int
  deriving DecidableEq, Repr

def F64.ofInt (n : Int) : F64 := ⟨n, 1⟩

def F64.add (a b : F64) : F64 := ⟨a.num * b.den + b.num * a.den, a.den * b.den⟩

def F64.sub (a b : F64) : F64 := ⟨a.num * b.den - b.num * a.den, a.den * b.den⟩

def F64.mul (a b : F64) : F64 := ⟨a.num * b.num, a.den * b.den⟩

def F64.div (a b : F64) : F64 :=
  if b.num < 0 then ⟨-(a.num * b.den), a.den * (-b.num)⟩
  else ⟨a.num * b.den, a.den * b.num⟩

def F64.neg (a : F64) : F64 := ⟨-a.num, a.den⟩

/-- Model of `==` on `f64` (exact values; NaN is never constructed here). -/
def F64.feq (a b : F64) : Bool := a.num * b.den == b.num * a.den

/-- Model of `<` on `f64`; sound because constructed denominators are positive. -/
def F64.flt (a b : F64) : Bool := a.num * b.den < b.num * a.den

def F64.fle (a b : F64) : Bool := a.num * b.den ≤ b.num * a.den

def F64.fgt (a b : F64) : Bool := F64.flt b a

def F64.fge (a b : F64) : Bool := F64.fle b a

/-- Rust's `Display` for `f64` prints integral values without a fractional
part (`7.0` prints as `7`), which is all the verified programs print; the
shortest-round-trip decimal form of non-integral values is not modelled. -/
def F64.display (a : F64) : String :=
  if a.den ≠ 0 ∧ a.num % a.den = 0 then toString (a.num / a.den)
  else toString a.num ++ "/" ++ toString a.den

/-! ## Tokens (`tokenizer.rs` lines 2–57) -/

/-- Model of `IlligalType` (the source's spelling). -/
inductive IlligalType where
  | unexpected
  | unterminatedString
  deriving DecidableEq, Repr

inductive TokenKind where
  | leftParen | rightParen | leftBrace | rightBrace
  | star | dot | comma | plus | minus | semi | slash
  | equal | equalEqual | bang | bangEqual
  | less | lessEqual | greater | greaterEqual
  | string
  | number (n : F64)
  | identifier
  | kwAnd | kwClass | kwElse | kwFalse | kwFor | kwFun | kwIf | kwNil
  | kwOr | kwPrint | kwReturn | kwSuper | kwThis | kwTrue | kwVar | kwWhile
  | illegal (ty : IlligalType)
  deriving DecidableEq, Repr

structure Token where
  kind : TokenKind
  literal : String
  line : Nat
  column : Nat
  deriving DecidableEq, Repr

/-! ## Character classes used by the lexer

Rust's `char::is_whitespace` is Unicode `White_Space`; inputs here are
ASCII, for which the set is U+0009–U+000D and U+0020 (we also include
U+0085 and U+00A0, the only other members below U+1680). -/

def isAsciiWhitespace (c : Char) : Bool :=
  c == ' ' || c == '\t' || c == '\n' || c == '\r' || c.toNat == 12

def isWhitespaceChar (c : Char) : Bool :=
  (9 ≤ c.toNat && c.toNat ≤ 13) || c.toNat == 32 || c.toNat == 133 || c.toNat == 160

def isAsciiDigit (c : Char) : Bool := '0' ≤ c && c ≤ '9'

def isAsciiPunctuation (c : Char) : Bool :=
  (33 ≤ c.toNat && c.toNat ≤ 47) || (58 ≤ c.toNat && c.toNat ≤ 64) ||
  (91 ≤ c.toNat && c.toNat ≤ 96) || (123 ≤ c.toNat && c.toNat ≤ 126)

/-- Model of `'a'..='z' | 'A'..='Z' | '_'`, the identifier-start pattern. -/
def isIdentStart (c : Char) : Bool :=
  ('a' ≤ c && c ≤ 'z') || ('A' ≤ c && c ≤ 'Z') || c == '_'

/-! ## Lexer (`tokenizer.rs` lines 118–327)

`Lexer` holds the remaining characters plus the line/column counters.
`advance` consumes one character, bumping the line on `'\n'`.  The
two-character lookaheads (`next_if_eq`) act on the raw iterator and do not
update the column, exactly as in the source. -/

structure Lexer where
  input : List Char
  line : Nat
  column : Nat
  deriving Repr

/-- Model of `Lexer::advance`. -/
def Lexer.advance : Lexer → Option (Char × Lexer)
  | ⟨[], _, _⟩ => none
  | ⟨c :: rest, line, column⟩ =>
    if c = '\n' then some (c, ⟨rest, line + 1, 1⟩)
    else some (c, ⟨rest, line, column + 1⟩)

/-- Model of `Lexer::skip_whitespace` (recursion phrased on the character list). -/
def skipWhitespaceAux : List Char → Nat → Nat → Lexer
  | [], line, column => ⟨[], line, column⟩
  | c :: rest, line, column =>
    if isAsciiWhitespace c then
      if c = '\n' then skipWhitespaceAux rest (line + 1) 1
      else skipWhitespaceAux rest line (column + 1)
    else ⟨c :: rest, line, column⟩

def Lexer.skipWhitespace (lx : Lexer) : Lexer :=
  skipWhitespaceAux lx.input lx.line lx.column

/-- Model of `Lexer::next_line`: consume up to (not including) the next `'\n'`. -/
def nextLineAux : List Char → Nat → Nat → Lexer
  | [], line, column => ⟨[], line, column⟩
  | c :: rest, line, column =>
    if c ≠ '\n' then nextLineAux rest line (column + 1)
    else ⟨c :: rest, line, column⟩

def Lexer.nextLine (lx : Lexer) : Lexer := nextLineAux lx.input lx.line lx.column

/-- The digit-consuming loops of the number branch (peek + `advance`). -/
def lexDigitsAux : List Char → Nat → Nat → String → String × Lexer
  | [], line, column, acc => (acc, ⟨[], line, column⟩)
  | c :: rest, line, column, acc =>
    if isAsciiDigit c then lexDigitsAux rest line (column + 1) (acc.push c)
    else (acc, ⟨c :: rest, line, column⟩)

def lexDigits (lx : Lexer) (acc : String) : String × Lexer :=
  lexDigitsAux lx.input lx.line lx.column acc

/-- The string-literal loop: consume until a closing quote or end of input;
returns (found_closing_quote, literal, rest). -/
def lexStringAux : List Char → Nat → Nat → String → Bool × String × Lexer
  | [], line, column, acc => (false, acc, ⟨[], line, column⟩)
  | c :: rest, line, column, acc =>
    if c = '"' then (true, acc, ⟨rest, line, column + 1⟩)
    else if c = '\n' then lexStringAux rest (line + 1) 1 (acc.push c)
    else lexStringAux rest line (column + 1) (acc.push c)

def lexStringBody (lx : Lexer) (acc : String) : Bool × String × Lexer :=
  lexStringAux lx.input lx.line lx.column acc

/-- The identifier loop with the source's exact (odd) continuation test:
continue while `!next.is_whitespace() || next.is_ascii_digit() || next == '_'`,
breaking early on any punctuation other than `'_'`. -/
def lexIdentAux : List Char → Nat → Nat → String → String × Lexer
  | [], line, column, acc => (acc, ⟨[], line, column⟩)
  | c :: rest, line, column, acc =>
    if !(isWhitespaceChar c) || isAsciiDigit c || c == '_' then
      if isAsciiPunctuation c && c ≠ '_' then (acc, ⟨c :: rest, line, column⟩)
      else if c = '\n' then lexIdentAux rest (line + 1) 1 (acc.push c)
      else lexIdentAux rest line (column + 1) (acc.push c)
    else (acc, ⟨c :: rest, line, column⟩)

def lexIdentBody (lx : Lexer) (acc : String) : String × Lexer :=
  lexIdentAux lx.input lx.line lx.column acc

/-- The keyword table at the end of the identifier branch. -/
def keywordOrIdentifier (literal : String) : TokenKind :=
  if literal = "and" then .kwAnd
  else if literal = "class" then .kwClass
  else if literal = "else" then .kwElse
  else if literal = "false" then .kwFalse
  else if literal = "for" then .kwFor
  else if literal = "fun" then .kwFun
  else if literal = "if" then .kwIf
  else if literal = "nil" then .kwNil
  else if literal = "or" then .kwOr
  else if literal = "print" then .kwPrint
  else if literal = "return" then .kwReturn
  else if literal = "super" then .kwSuper
  else if literal = "this" then .kwThis
  else if literal = "true" then .kwTrue
  else if literal = "var" then .kwVar
  else if literal = "while" then .kwWhile
  else .identifier

/-- Model of `number.parse::<f64>()` on the digit strings the number branch builds
(digits, optionally `'.'` and more digits): exact decimal value. -/
def parseF64 (s : String) : F64 :=
  let rec go : List Char → Int → Bool → Int → (Int × Int)
    | [], acc, _, den => (acc, den)
    | c :: rest, acc, seenDot, den =>
      if c = '.' then go rest acc true den
      else
        go rest (acc * 10 + (c.toNat - '0'.toNat : Nat)) seenDot
          (if seenDot then den * 10 else den)
  let (n, d) := go s.data 0 false 1
  ⟨n, d⟩

/-- Model of `Lexer::next_token`.  The fuel only feeds the comment case, which
restarts the scan after discarding the rest of the line. -/
def Lexer.nextToken : Nat → Lexer → Option (Token × Lexer)
  | 0, _ => none
  | fuel + 1, lx0 =>
    let lx := lx0.skipWhitespace
    let startLine := lx.line
    let startColumn := lx.column
    match lx.advance with
    | none => none
    | some (ch, lx1) =>
      let mk : TokenKind → String → Lexer → Option (Token × Lexer) :=
        fun kind literal lx' => some (⟨kind, literal, startLine, startColumn⟩, lx')
      let one : TokenKind → Option (Token × Lexer) :=
        fun kind => mk kind (String.singleton ch) lx1
      -- the two-character operators use `input.next_if_eq`, which consumes
      -- from the raw iterator without touching the column counter
      let twoIfEq : Char → TokenKind → TokenKind → Option (Token × Lexer) :=
        fun nxt two oneK =>
          match lx1.input with
          | c :: rest =>
            if c = nxt then
              mk two ((String.singleton ch).push c) ⟨rest, lx1.line, lx1.column⟩
            else one oneK
          | [] => one oneK
      if ch = '(' then one .leftParen
      else if ch = ')' then one .rightParen
      else if ch = '{' then one .leftBrace
      else if ch = '}' then one .rightBrace
      else if ch = '*' then one .star
      else if ch = '.' then one .dot
      else if ch = ',' then one .comma
      else if ch = '+' then one .plus
      else if ch = '-' then one .minus
      else if ch = ';' then one .semi
      else if ch = '/' then
        match lx1.input with
        | c :: rest =>
          if c = '/' then
            Lexer.nextToken fuel (Lexer.nextLine ⟨rest, lx1.line, lx1.column⟩)
          else one .slash
        | [] => one .slash
      else if ch = '=' then twoIfEq '=' .equalEqual .equal
      else if ch = '!' then twoIfEq '=' .bangEqual .bang
      else if ch = '<' then twoIfEq '=' .lessEqual .less
      else if ch = '>' then twoIfEq '=' .greaterEqual .greater
      else if ch = '"' then
        match lexStringBody lx1 "" with
        | (foundClosing, literal, lx2) =>
          if foundClosing then mk .string literal lx2
          else mk (.illegal .unterminatedString) literal lx2
      else if isAsciiDigit ch then
        let (digits, lx2) := lexDigits lx1 (String.singleton ch)
        -- `temp_input` probe: the dot is consumed only when a digit follows it
        match lx2.input with
        | '.' :: c :: _ =>
          if isAsciiDigit c then
            -- `self.advance()` consumes the dot, then the fraction digits
            match lx2.advance with
            | some (_, lx3) =>
              let (frac, lx4) := lexDigits lx3 ""
              let numberStr :=
                if frac.isEmpty then digits else (digits.push '.') ++ frac
              mk (.number (parseF64 numberStr)) numberStr lx4
            | none => mk (.number (parseF64 digits)) digits lx2
          else mk (.number (parseF64 digits)) digits lx2
        | _ => mk (.number (parseF64 digits)) digits lx2
      else if isIdentStart ch then
        let (literal, lx2) := lexIdentBody lx1 (String.singleton ch)
        mk (keywordOrIdentifier literal) literal lx2
      else mk (.illegal .unexpected) (String.singleton ch) lx1

/-- Collecting the `Iterator` for `Lexer` into a vector of tokens. -/
def lexTokens : Nat → Lexer → List Token
  | 0, _ => []
  | fuel + 1, lx =>
    match Lexer.nextToken (fuel + 1) lx with
    | none => []
    | some (t, lx') => t :: lexTokens fuel lx'

/-- Model of `Lexer::new(input)` followed by `collect()`.  Every produced token
consumes at least one character, so `length + 1` fuel always suffices. -/
def lexSource (src : String) : List Token :=
  lexTokens (src.length + 1) ⟨src.data, 1, 1⟩

/-! ## AST (`ast.rs`)

`ast.rs` declares `Statement::Class { name, methods }` with no superclass
field and no `Expression::Super` variant, while `interpreter.rs` (a later
snapshot of the same crate) destructures `Class { name, superclass, methods }`
and matches `Expression::Super`.  So that the interpreter's class code is
representable we give `classDecl` the `superclass : Option String` field the
interpreter expects; the resolver and the parser (which are in step with
`ast.rs`) never touch it.  `Super` appears in no file's type, only in the
interpreter's dead match arm, and is omitted. -/

inductive Literal where
  | num (n : F64)
  | str (s : String)
  | bool (b : Bool)
  | nil

inductive Expression where
  | assign (name : String) (value : Expression) (resolved : Option Nat)
  | binary (left : Expression) (operator : TokenKind) (right : Expression)
  | literal (l : Literal)
  | unary (operator : TokenKind) (expression : Expression)
  | group (e : Expression)
  | var (name : String) (resolved : Option Nat)
  | logical (left : Expression) (operator : TokenKind) (right : Expression)
  | call (callee : Expression) (args : List Expression)
  | set (object : Expression) (property : String) (value : Expression)
  | get (object : Expression) (name : String)
  | this (resolved : Option Nat)

inductive Statement where
  | expr (e : Expression)
  | block (list : List Statement)
  | classDecl (name : String) (superclass : Option String) (methods : List Statement)
  | print (e : Expression)
  | varDecl (name : String) (initializer : Option Expression)
  | ifStmt (condition : Expression) (thenBranch : Statement)
      (elseBranch : Option Statement)
  | whileStmt (condition : Expression) (body : Statement)
  | forStmt (initStmt : Option Statement) (condition : Option Expression)
      (increment : Option Expression) (body : Statement)
  | function (name : String) (params : List String) (body : List Statement)
  | ret (value : Option Expression)

/-! ## Parser (`parser.rs`, the module the crate builds)

State: the peekable token iterator, the `had_error` flag and the
`function_names` map (function name ↦ parameter count) that `finish_call`
consults.  Results are state × outcome; `crash` models `unwrap()` panics. -/

inductive ParserError where
  | message (s : String)
  | unexpectedEof (line : Nat)
  | unexpectedToken (line : Nat) (token : String)
  | invalidAssignmentTarget (line : Nat) (token : String)
  deriving DecidableEq, Repr

structure ParserSt where
  tokens : List Token
  hadError : Bool
  functionNames : List (String × Nat)
  deriving Repr

/-- Model of `Parser::new(input)`. -/
def ParserSt.new (input : String) : ParserSt := ⟨lexSource input, false, []⟩

inductive POut (α : Type) where
  | ok (a : α)
  | err (e : ParserError)
  | fuel
  | crash

def ParserSt.peek (st : ParserSt) : Option Token := st.tokens.head?

def ParserSt.peekKind (st : ParserSt) : Option TokenKind := st.tokens.head?.map (·.kind)

def ParserSt.advance (st : ParserSt) : ParserSt × Option Token :=
  match st.tokens with
  | [] => (st, none)
  | t :: rest => ({ st with tokens := rest }, some t)

/-- Model of `Parser::consume`. -/
def pConsume (st : ParserSt) (expected : TokenKind) : ParserSt × POut Token :=
  match st.tokens with
  | t :: rest =>
    if t.kind = expected then ({ st with tokens := rest }, .ok t)
    else ({ st with tokens := rest }, .err (.unexpectedToken t.line t.literal))
  | [] => (st, .err (.unexpectedEof 1))

/-- Sequencing with the `?` operator: errors, fuel exhaustion and panics
short-circuit, the parser state threads through. -/
def pBind {α β : Type} (r : ParserSt × POut α)
    (k : ParserSt → α → ParserSt × POut β) : ParserSt × POut β :=
  match r with
  | (st, .ok a) => k st a
  | (st, .err e) => (st, .err e)
  | (st, .fuel) => (st, .fuel)
  | (st, .crash) => (st, .crash)

/-- Model of `Parser::synchronize`. -/
def pSynchronize : Nat → ParserSt → ParserSt
  | 0, st => st
  | fuel + 1, st =>
    match st.peek with
    | none => st
    | some token =>
      if token.kind = .semi then (st.advance).1
      else
        match token.kind with
        | .kwPrint | .kwVar | .leftBrace | .kwIf | .kwWhile | .kwFor
        | .kwReturn | .kwFun | .kwClass => st
        | .rightBrace => st
        | _ => pSynchronize fuel (st.advance).1

mutual

/-- Model of `Parser::parse_statements` (statement loop with error recovery). -/
def pParseStatements : Nat → ParserSt → ParserSt × POut (List Statement)
  | 0, st => (st, .fuel)
  | fuel + 1, st => pParseStatementsLoop fuel st [] []

def pParseStatementsLoop :
    Nat → ParserSt → List Statement → List ParserError → ParserSt × POut (List Statement)
  | 0, st, _, _ => (st, .fuel)
  | fuel + 1, st, acc, errs =>
    if st.peek.isSome then
      match pStatement fuel st with
      | (st', .ok stmt) => pParseStatementsLoop fuel st' (acc ++ [stmt]) errs
      | (st', .err e) =>
        let st'' := pSynchronize fuel { st' with hadError := true }
        pParseStatementsLoop fuel st'' acc (errs ++ [e])
      | (st', .fuel) => (st', .fuel)
      | (st', .crash) => (st', .crash)
    else
      match errs with
      | [] => (st, .ok acc)
      | e :: _ => (st, .err e)

/-- Model of `Parser::statement` (dispatch on the peeked token). -/
def pStatement : Nat → ParserSt → ParserSt × POut Statement
  | 0, st => (st, .fuel)
  | fuel + 1, st =>
    match st.peekKind with
    | none => (st, .err (.unexpectedEof 1))
    | some kind =>
      match kind with
      | .kwPrint => pPrintStatement fuel st
      | .kwVar => pDeclaration fuel st
      | .leftBrace => pBlock fuel st
      | .kwIf => pIfStatement fuel st
      | .kwWhile => pWhileStatement fuel st
      | .kwFor => pForStatement fuel st
      | .kwFun => pFunction fuel st
      | .kwReturn => pReturnStatement fuel st
      | _ => pExprStatement fuel st

/-- Model of `Parser::declaration` (`var` statements). -/
def pDeclaration : Nat → ParserSt → ParserSt × POut Statement
  | 0, st => (st, .fuel)
  | fuel + 1, st =>
    let (st1, _) := st.advance
    pBind (pConsume st1 .identifier) fun st2 variable' =>
    if st2.peekKind = some .equal then
      let (st3, _) := st2.advance
      pBind (pExpression fuel st3) fun st4 initializer =>
      pBind (pConsume st4 .semi) fun st5 _ =>
      (st5, .ok (.varDecl variable'.literal (some initializer)))
    else
      pBind (pConsume st2 .semi) fun st3 _ =>
      (st3, .ok (.varDecl variable'.literal none))

/-- Model of `Parser::return_statement`. -/
def pReturnStatement : Nat → ParserSt → ParserSt × POut Statement
  | 0, st => (st, .fuel)
  | fuel + 1, st =>
    let (st1, _) := st.advance
    if st1.peekKind ≠ some .semi then
      pBind (pExpression fuel st1) fun st2 value =>
      pBind (pConsume st2 .semi) fun st3 _ =>
      (st3, .ok (.ret (some value)))
    else
      pBind (pConsume st1 .semi) fun st2 _ =>
      (st2, .ok (.ret none))

/-- Model of `Parser::function`. -/
def pFunction : Nat → ParserSt → ParserSt × POut Statement
  | 0, st => (st, .fuel)
  | fuel + 1, st =>
    let (st1, _) := st.advance
    match st1.peek with
    | none => (st1, .crash)
    | some nameTok =>
      let functionName := nameTok.literal
      pBind (pConsume st1 .identifier) fun st2 _ =>
      pBind (pConsume st2 .leftParen) fun st3 _ =>
      pBind
        (if st3.peekKind ≠ some .rightParen then pParamsLoop fuel st3 []
         else (st3, .ok []))
        fun st4 params =>
      pBind (pConsume st4 .rightParen) fun st5 _ =>
      pBind (pBlock fuel st5) fun st6 blockStmt =>
      match blockStmt with
      | .block v =>
        let st7 :=
          { st6 with functionNames := aListInsert st6.functionNames functionName params.length }
        (st7, .ok (.function functionName params v))
      | _ => (st6, .crash)

/-- The parameter loop inside `Parser::function`. -/
def pParamsLoop : Nat → ParserSt → List String → ParserSt × POut (List String)
  | 0, st, _ => (st, .fuel)
  | fuel + 1, st, params =>
    if params.length ≥ 255 then
      (st, .err (.message "Cannot have more than 255 parameters."))
    else
      pBind (pConsume st .identifier) fun st1 param =>
      let params' := params ++ [param.literal]
      if st1.peekKind ≠ some .comma then (st1, .ok params')
      else
        let (st2, _) := st1.advance
        pParamsLoop fuel st2 params'

/-- Model of `Parser::print_statement`. -/
def pPrintStatement : Nat → ParserSt → ParserSt × POut Statement
  | 0, st => (st, .fuel)
  | fuel + 1, st =>
    let (st1, _) := st.advance
    pBind (pExpression fuel st1) fun st2 e =>
    pBind (pConsume st2 .semi) fun st3 _ =>
    (st3, .ok (.print e))

/-- Model of `Parser::expr_statement`. -/
def pExprStatement : Nat → ParserSt → ParserSt × POut Statement
  | 0, st => (st, .fuel)
  | fuel + 1, st =>
    pBind (pExpression fuel st) fun st1 e =>
    pBind (pConsume st1 .semi) fun st2 _ =>
    (st2, .ok (.expr e))

/-- Model of `Parser::block`. -/
def pBlock : Nat → ParserSt → ParserSt × POut Statement
  | 0, st => (st, .fuel)
  | fuel + 1, st =>
    let (st1, _) := st.advance
    pBind (pBlockLoop fuel st1 []) fun st2 blocks =>
    pBind (pConsume st2 .rightBrace) fun st3 _ =>
    (st3, .ok (.block blocks))

/-- The statement loop inside `Parser::block` (statement errors propagate). -/
def pBlockLoop : Nat → ParserSt → List Statement → ParserSt × POut (List Statement)
  | 0, st, _ => (st, .fuel)
  | fuel + 1, st, acc =>
    match st.peek with
    | none => (st, .ok acc)
    | some token =>
      if token.kind = .rightBrace then (st, .ok acc)
      else
        pBind (pStatement fuel st) fun st1 stmt =>
        pBlockLoop fuel st1 (acc ++ [stmt])

/-- Model of `Parser::if_statement` (with the special `else var x = e;` form). -/
def pIfStatement : Nat → ParserSt → ParserSt × POut Statement
  | 0, st => (st, .fuel)
  | fuel + 1, st =>
    let (st1, _) := st.advance
    pBind (pConsume st1 .leftParen) fun st2 _ =>
    pBind (pExpression fuel st2) fun st3 condition =>
    pBind (pConsume st3 .rightParen) fun st4 _ =>
    pBind (pStatement fuel st4) fun st5 thenBranch =>
    if st5.peekKind = some .kwElse then
      let (st6, _) := st5.advance
      if st6.peekKind = some .kwVar then
        let (st7, _) := st6.advance
        pBind (pConsume st7 .identifier) fun st8 variable' =>
        pBind (pConsume st8 .equal) fun st9 _ =>
        pBind (pExpression fuel st9) fun st10 initial =>
        pBind (pConsume st10 .semi) fun st11 _ =>
        (st11, .ok (.ifStmt condition thenBranch
          (some (.varDecl variable'.literal (some initial)))))
      else
        pBind (pStatement fuel st6) fun st7 elseBranch =>
        (st7, .ok (.ifStmt condition thenBranch (some elseBranch)))
    else (st5, .ok (.ifStmt condition thenBranch none))

/-- Model of `Parser::while_statement`. -/
def pWhileStatement : Nat → ParserSt → ParserSt × POut Statement
  | 0, st => (st, .fuel)
  | fuel + 1, st =>
    let (st1, _) := st.advance
    pBind (pConsume st1 .leftParen) fun st2 _ =>
    pBind (pExpression fuel st2) fun st3 condition =>
    pBind (pConsume st3 .rightParen) fun st4 _ =>
    pBind (pStatement fuel st4) fun st5 body =>
    (st5, .ok (.whileStmt condition body))

/-- Model of `Parser::for_statement` (with the special `var x = e;` body form). -/
def pForStatement : Nat → ParserSt → ParserSt × POut Statement
  | 0, st => (st, .fuel)
  | fuel + 1, st =>
    let (st1, _) := st.advance
    pBind (pConsume st1 .leftParen) fun st2 _ =>
    pBind
      (if st2.peekKind ≠ some .semi then
        pBind
          (if st2.peekKind = some .kwVar then pDeclaration fuel st2
           else pExprStatement fuel st2)
          fun st3 s => (st3, .ok (some s))
       else
        pBind (pConsume st2 .semi) fun st3 _ => (st3, .ok none))
      fun st3 initStmt =>
    pBind
      (if st3.peekKind ≠ some .semi then
        pBind (pExpression fuel st3) fun st4 c => (st4, .ok (some c))
       else (st3, .ok none))
      fun st4 condition =>
    pBind (pConsume st4 .semi) fun st5 _ =>
    pBind
      (if st5.peekKind ≠ some .rightParen then
        pBind (pExpression fuel st5) fun st6 i => (st6, .ok (some i))
       else (st5, .ok none))
      fun st6 increment =>
    pBind (pConsume st6 .rightParen) fun st7 _ =>
    pBind
      (if st7.peekKind = some .kwVar then
        let (st8, _) := st7.advance
        pBind (pConsume st8 .identifier) fun st9 variable' =>
        pBind (pConsume st9 .equal) fun st10 _ =>
        pBind (pExpression fuel st10) fun st11 initial =>
        pBind (pConsume st11 .semi) fun st12 _ =>
        (st12, .ok (Statement.varDecl variable'.literal (some initial)))
       else pStatement fuel st7)
      fun st8 body =>
    (st8, .ok (.forStmt initStmt condition increment body))

/-- Model of `Parser::parse` (the expression entry point). -/
def pParse : Nat → ParserSt → ParserSt × POut Expression
  | 0, st => (st, .fuel)
  | fuel + 1, st => pExpression fuel st

/-- Model of `Parser::expression → assignment`. -/
def pExpression : Nat → ParserSt → ParserSt × POut Expression
  | 0, st => (st, .fuel)
  | fuel + 1, st => pAssignment fuel st

/-- Model of `Parser::assignment`. -/
def pAssignment : Nat → ParserSt → ParserSt × POut Expression
  | 0, st => (st, .fuel)
  | fuel + 1, st =>
    pBind (pOrExpression fuel st) fun st1 expr =>
    if st1.peekKind = some .equal then
      match st1.advance with
      | (st2, some token) =>
        pBind (pAssignment fuel st2) fun st3 value =>
        match expr with
        | .var name _ => (st3, .ok (.assign name value none))
        | _ => (st3, .err (.invalidAssignmentTarget token.line token.literal))
      | (st2, none) => (st2, .crash)
    else (st1, .ok expr)

/-- Model of `Parser::or_expression`. -/
def pOrExpression : Nat → ParserSt → ParserSt × POut Expression
  | 0, st => (st, .fuel)
  | fuel + 1, st =>
    pBind (pAndExpression fuel st) fun st1 expr => pOrLoop fuel st1 expr

def pOrLoop : Nat → ParserSt → Expression → ParserSt × POut Expression
  | 0, st, _ => (st, .fuel)
  | fuel + 1, st, expr =>
    if st.peekKind = some .kwOr then
      match st.advance with
      | (st1, some operator) =>
        pBind (pAndExpression fuel st1) fun st2 right =>
        pOrLoop fuel st2 (.logical expr operator.kind right)
      | (st1, none) => (st1, .crash)
    else (st, .ok expr)

/-- Model of `Parser::and_expression`. -/
def pAndExpression : Nat → ParserSt → ParserSt × POut Expression
  | 0, st => (st, .fuel)
  | fuel + 1, st =>
    pBind (pEquality fuel st) fun st1 expr => pAndLoop fuel st1 expr

def pAndLoop : Nat → ParserSt → Expression → ParserSt × POut Expression
  | 0, st, _ => (st, .fuel)
  | fuel + 1, st, expr =>
    if st.peekKind = some .kwAnd then
      match st.advance with
      | (st1, some operator) =>
        pBind (pEquality fuel st1) fun st2 right =>
        pAndLoop fuel st2 (.logical expr operator.kind right)
      | (st1, none) => (st1, .crash)
    else (st, .ok expr)

/-- Model of `Parser::equality`. -/
def pEquality : Nat → ParserSt → ParserSt × POut Expression
  | 0, st => (st, .fuel)
  | fuel + 1, st =>
    pBind (pComparison fuel st) fun st1 expr => pEqualityLoop fuel st1 expr

def pEqualityLoop : Nat → ParserSt → Expression → ParserSt × POut Expression
  | 0, st, _ => (st, .fuel)
  | fuel + 1, st, expr =>
    match st.peekKind with
    | some .equalEqual | some .bangEqual =>
      match st.advance with
      | (st1, some operator) =>
        pBind (pComparison fuel st1) fun st2 right =>
        pEqualityLoop fuel st2 (.binary expr operator.kind right)
      | (st1, none) => (st1, .crash)
    | _ => (st, .ok expr)

/-- Model of `Parser::comparison`. -/
def pComparison : Nat → ParserSt → ParserSt × POut Expression
  | 0, st => (st, .fuel)
  | fuel + 1, st =>
    pBind (pTerm fuel st) fun st1 expr => pComparisonLoop fuel st1 expr

def pComparisonLoop : Nat → ParserSt → Expression → ParserSt × POut Expression
  | 0, st, _ => (st, .fuel)
  | fuel + 1, st, expr =>
    match st.peekKind with
    | some .greater | some .greaterEqual | some .less | some .lessEqual =>
      match st.advance with
      | (st1, some operator) =>
        pBind (pTerm fuel st1) fun st2 right =>
        pComparisonLoop fuel st2 (.binary expr operator.kind right)
      | (st1, none) => (st1, .crash)
    | _ => (st, .ok expr)

/-- Model of `Parser::term`. -/
def pTerm : Nat → ParserSt → ParserSt × POut Expression
  | 0, st => (st, .fuel)
  | fuel + 1, st =>
    pBind (pFactor fuel st) fun st1 expr => pTermLoop fuel st1 expr

def pTermLoop : Nat → ParserSt → Expression → ParserSt × POut Expression
  | 0, st, _ => (st, .fuel)
  | fuel + 1, st, expr =>
    match st.peekKind with
    | some .plus | some .minus =>
      match st.advance with
      | (st1, some operator) =>
        pBind (pFactor fuel st1) fun st2 right =>
        pTermLoop fuel st2 (.binary expr operator.kind right)
      | (st1, none) => (st1, .crash)
    | _ => (st, .ok expr)

/-- Model of `Parser::factor`. -/
def pFactor : Nat → ParserSt → ParserSt × POut Expression
  | 0, st => (st, .fuel)
  | fuel + 1, st =>
    pBind (pUnary fuel st) fun st1 expr => pFactorLoop fuel st1 expr

def pFactorLoop : Nat → ParserSt → Expression → ParserSt × POut Expression
  | 0, st, _ => (st, .fuel)
  | fuel + 1, st, expr =>
    match st.peekKind with
    | some .star | some .slash =>
      match st.advance with
      | (st1, some operator) =>
        pBind (pUnary fuel st1) fun st2 right =>
        pFactorLoop fuel st2 (.binary expr operator.kind right)
      | (st1, none) => (st1, .crash)
    | _ => (st, .ok expr)

/-- Model of `Parser::unary`. -/
def pUnary : Nat → ParserSt → ParserSt × POut Expression
  | 0, st => (st, .fuel)
  | fuel + 1, st =>
    match st.peekKind with
    | some .bang | some .minus =>
      match st.advance with
      | (st1, some operator) =>
        pBind (pUnary fuel st1) fun st2 expression =>
        (st2, .ok (.unary operator.kind expression))
      | (st1, none) => (st1, .crash)
    | _ => pCall fuel st

/-- Model of `Parser::call` (only `(`-calls; the live parser has no `.` postfix). -/
def pCall : Nat → ParserSt → ParserSt × POut Expression
  | 0, st => (st, .fuel)
  | fuel + 1, st =>
    pBind (pPrimary fuel st) fun st1 expr => pCallLoop fuel st1 expr

def pCallLoop : Nat → ParserSt → Expression → ParserSt × POut Expression
  | 0, st, _ => (st, .fuel)
  | fuel + 1, st, expr =>
    if st.peekKind = some .leftParen then
      let (st1, _) := st.advance
      pBind (pFinishCall fuel st1 expr) fun st2 expr' =>
      pCallLoop fuel st2 expr'
    else (st, .ok expr)

/-- Model of `Parser::finish_call`, including the `function_names` zero-argument
check (note the source swaps the counts in its message). -/
def pFinishCall : Nat → ParserSt → Expression → ParserSt × POut Expression
  | 0, st, _ => (st, .fuel)
  | fuel + 1, st, callee =>
    let callFn : Option String :=
      match callee with
      | .var name _ => some name
      | _ => none
    pBind
      (if st.peekKind ≠ some .rightParen then pArgsLoop fuel st []
       else (st, .ok []))
      fun st1 args =>
    pBind (pConsume st1 .rightParen) fun st2 _ =>
    match callFn with
    | some fnName =>
      match aListLookup st2.functionNames fnName with
      | some funArgs =>
        if funArgs > 0 && args.isEmpty then
          (st2, .err (.message ("Expected " ++ toString args.length ++
            " arguments but got " ++ toString funArgs ++ ".")))
        else (st2, .ok (.call callee args))
      | none => (st2, .ok (.call callee args))
    | none => (st2, .ok (.call callee args))

/-- The argument loop inside `Parser::finish_call`. -/
def pArgsLoop : Nat → ParserSt → List Expression → ParserSt × POut (List Expression)
  | 0, st, _ => (st, .fuel)
  | fuel + 1, st, args =>
    if args.length ≥ 255 then
      (st, .err (.message "Cannot have more than 255 arguments."))
    else
      pBind (pExpression fuel st) fun st1 arg =>
      let args' := args ++ [arg]
      if st1.peekKind ≠ some .comma then (st1, .ok args')
      else
        let (st2, _) := st1.advance
        pArgsLoop fuel st2 args'

/-- Model of `Parser::primary`. -/
def pPrimary : Nat → ParserSt → ParserSt × POut Expression
  | 0, st => (st, .fuel)
  | fuel + 1, st =>
    match st.advance with
    | (st1, none) => (st1, .err (.unexpectedEof 1))
    | (st1, some token) =>
      match token.kind with
      | .number n => (st1, .ok (.literal (.num n)))
      | .string => (st1, .ok (.literal (.str token.literal)))
      | .kwTrue => (st1, .ok (.literal (.bool true)))
      | .kwFalse => (st1, .ok (.literal (.bool false)))
      | .kwNil => (st1, .ok (.literal .nil))
      | .identifier => (st1, .ok (.var token.literal none))
      | .leftParen =>
        pBind (pExpression fuel st1) fun st2 expression =>
        pBind (pConsume st2 .rightParen) fun st3 _ =>
        (st3, .ok (.group expression))
      | _ => (st1, .err (.unexpectedToken token.line token.literal))

end

/-! ## Resolver (`resolver.rs`)

`Resolver` also owns the `Interpreter`, but no resolver method reads or
writes it (`Interpreter::resolve` / `Interpreter::locals` are never called),
so it is omitted from the state.  The scope stack is kept in `Vec` order:
index 0 is the scope pushed by `Resolver::new`, the last element is the
innermost scope.  The resolver rewrites the AST in place (the `resolved`
annotations); here each function returns the rewritten node. -/

inductive ResolverError where
  | message (s : String)
  deriving DecidableEq, Repr

/-- Model of `Display` for `ResolverError`. -/
def ResolverError.display : ResolverError → String
  | .message s => s

inductive FunctionType where
  | none | function | initializer | method
  deriving DecidableEq, Repr

inductive ClassType where
  | none | classType
  deriving DecidableEq, Repr

structure Resolver where
  scopes : List (List (String × Bool))
  currentFunction : FunctionType
  currentClass : ClassType
  deriving Repr

/-- Model of `Resolver::new` pushes one initial scope onto the stack. -/
def Resolver.new : Resolver := ⟨[[]], .none, .none⟩

def Resolver.beginScope (r : Resolver) : Resolver :=
  { r with scopes := r.scopes ++ [[]] }

def Resolver.endScope (r : Resolver) : Resolver :=
  { r with scopes := r.scopes.dropLast }

/-- Model of `Resolver::declare`. -/
def Resolver.declare (r : Resolver) (name : String) :
    Except ResolverError Resolver :=
  let isGlobal := r.scopes.length = 1
  match r.scopes.getLast? with
  | Option.none => .ok r
  | some scope =>
    if (aListLookup scope name).isSome ∧ ¬ isGlobal then
      .error (.message ("Already a variable with name '" ++ name ++ "' in this scope."))
    else
      .ok { r with scopes := modifyLast (fun s => aListInsert s name false) r.scopes }

/-- Model of `Resolver::define`. -/
def Resolver.define (r : Resolver) (name : String) : Resolver :=
  { r with scopes := modifyLast (fun s => aListInsert s name true) r.scopes }

inductive ROut (α : Type) where
  | ok (a : α)
  | err (e : ResolverError)
  | fuel
  | crash

def rBind {α β : Type} (r : ROut α) (k : α → ROut β) : ROut β :=
  match r with
  | .ok a => k a
  | .err e => .err e
  | .fuel => .fuel
  | .crash => .crash

/-- Model of `scopes.iter().rev().position(|scope| scope.contains_key(name))`. -/
def Resolver.scopeDistance (r : Resolver) (name : String) : Option Nat :=
  myFindIdx (fun scope => (aListLookup scope name).isSome) r.scopes.reverse

mutual

/-- Model of `Resolver::resolve_stmts`. -/
def resolveStmts : Nat → Resolver → List Statement → ROut (Resolver × List Statement)
  | 0, _, _ => .fuel
  | _ + 1, r, [] => .ok (r, [])
  | fuel + 1, r, s :: rest =>
    rBind (resolveStmt fuel r s) fun (r1, s') =>
    rBind (resolveStmts fuel r1 rest) fun (r2, rest') =>
    .ok (r2, s' :: rest')

/-- Model of `Resolver::resolve_stmt`. -/
def resolveStmt : Nat → Resolver → Statement → ROut (Resolver × Statement)
  | 0, _, _ => .fuel
  | fuel + 1, r, stmt =>
    match stmt with
    | .block list =>
      rBind (resolveStmts fuel r.beginScope list) fun (r1, list') =>
      .ok (r1.endScope, .block list')
    | .varDecl name initializer =>
      match r.declare name with
      | .error e => .err e
      | .ok r1 =>
        match initializer with
        | some e =>
          rBind (resolveExpr fuel r1 e) fun (r2, e') =>
          .ok (r2.define name, .varDecl name (some e'))
        | Option.none => .ok (r1.define name, .varDecl name none)
    | .function name params body =>
      match r.declare name with
      | .error e => .err e
      | .ok r1 =>
        let r2 := r1.define name
        rBind (resolveFunction fuel r2 params body .function) fun (r3, body') =>
        .ok (r3, .function name params body')
    | .expr e =>
      rBind (resolveExpr fuel r e) fun (r1, e') => .ok (r1, .expr e')
    | .print e =>
      rBind (resolveExpr fuel r e) fun (r1, e') => .ok (r1, .print e')
    | .ifStmt condition thenBranch elseBranch =>
      rBind (resolveExpr fuel r condition) fun (r1, condition') =>
      rBind (resolveStmt fuel r1 thenBranch) fun (r2, then') =>
      match elseBranch with
      | some elseStmt =>
        rBind (resolveStmt fuel r2 elseStmt) fun (r3, else') =>
        .ok (r3, .ifStmt condition' then' (some else'))
      | Option.none => .ok (r2, .ifStmt condition' then' none)
    | .ret value =>
      if r.currentFunction = .none then
        .err (.message "Can't return from top-level code.")
      else if r.currentFunction = .initializer ∧ value.isSome then
        .err (.message "Can't return a value from an initializer.")
      else
        match value with
        | some e =>
          rBind (resolveExpr fuel r e) fun (r1, e') => .ok (r1, .ret (some e'))
        | Option.none => .ok (r, .ret none)
    | .whileStmt condition body =>
      rBind (resolveExpr fuel r condition) fun (r1, condition') =>
      rBind (resolveStmt fuel r1 body) fun (r2, body') =>
      .ok (r2, .whileStmt condition' body')
    | .forStmt initStmt condition increment body =>
      let r0 := r.beginScope
      rBind
        (match initStmt with
         | some i =>
           rBind (resolveStmt fuel r0 i) fun (r1, i') => .ok (r1, some i')
         | Option.none => .ok (r0, none))
        fun (r1, initStmt') =>
      rBind
        (match condition with
         | some c =>
           rBind (resolveExpr fuel r1 c) fun (r2, c') => .ok (r2, some c')
         | Option.none => .ok (r1, none))
        fun (r2, condition') =>
      rBind (resolveStmt fuel r2 body) fun (r3, body') =>
      rBind
        (match increment with
         | some i =>
           rBind (resolveExpr fuel r3 i) fun (r4, i') => .ok (r4, some i')
         | Option.none => .ok (r3, none))
        fun (r4, increment') =>
      .ok (r4.endScope, .forStmt initStmt' condition' increment' body')
    | .classDecl name superclass methods =>
      -- resolver.rs matches `Statement::Class { name, methods }`; the
      -- superclass name is not resolved, only carried through
      rBind (resolveClass fuel r name methods) fun (r1, methods') =>
      .ok (r1, .classDecl name superclass methods')

/-- Model of `Resolver::resolve_class`. -/
def resolveClass : Nat → Resolver → String → List Statement →
    ROut (Resolver × List Statement)
  | 0, _, _, _ => .fuel
  | fuel + 1, r, name, methods =>
    let enclosingClass := r.currentClass
    let r1 := { r with currentClass := .classType }
    match r1.declare name with
    | .error e => .err e
    | .ok r2 =>
      let r3 := r2.define name
      rBind (resolveMethods fuel r3 methods) fun (r4, methods') =>
      .ok ({ r4 with currentClass := enclosingClass }, methods')

/-- The method loop inside `Resolver::resolve_class`. -/
def resolveMethods : Nat → Resolver → List Statement →
    ROut (Resolver × List Statement)
  | 0, _, _ => .fuel
  | _ + 1, r, [] => .ok (r, [])
  | fuel + 1, r, m :: rest =>
    match m with
    | .function methodName params body =>
      let functionType : FunctionType :=
        if methodName = "init" then .initializer else .method
      rBind (resolveFunction fuel r params body functionType) fun (r1, body') =>
      rBind (resolveMethods fuel r1 rest) fun (r2, rest') =>
      .ok (r2, Statement.function methodName params body' :: rest')
    | _ => .crash

/-- Model of `Resolver::resolve_function`. -/
def resolveFunction : Nat → Resolver → List String → List Statement →
    FunctionType → ROut (Resolver × List Statement)
  | 0, _, _, _, _ => .fuel
  | fuel + 1, r, params, body, functionType =>
    let enclosingFunction := r.currentFunction
    let r1 := { r with currentFunction := functionType }
    let r2 := r1.beginScope
    rBind
      (if functionType = .method ∨ functionType = .initializer then
        match r2.declare "this" with
        | .error e => .err e
        | .ok r3 => .ok (r3.define "this")
       else .ok r2)
      fun r3 =>
    rBind (declareParams r3 params) fun r4 =>
    rBind (resolveStmts fuel r4 body) fun (r5, body') =>
    .ok ({ r5.endScope with currentFunction := enclosingFunction }, body')

/-- The parameter loop inside `Resolver::resolve_function`. -/
def declareParams : Resolver → List String → ROut Resolver
  | r, [] => .ok r
  | r, p :: rest =>
    match r.declare p with
    | .error e => .err e
    | .ok r1 => declareParams (r1.define p) rest

/-- Model of `Resolver::resolve_expr`. -/
def resolveExpr : Nat → Resolver → Expression → ROut (Resolver × Expression)
  | 0, _, _ => .fuel
  | fuel + 1, r, expr =>
    match expr with
    | .literal l => .ok (r, .literal l)
    -- `Expression::Literal(_) | Expression::Group(_) => {}`: the resolver
    -- does not descend into a grouping expression
    | .group e => .ok (r, .group e)
    | .unary operator expression =>
      rBind (resolveExpr fuel r expression) fun (r1, e') =>
      .ok (r1, .unary operator e')
    | .binary left operator right =>
      rBind (resolveExpr fuel r left) fun (r1, left') =>
      rBind (resolveExpr fuel r1 right) fun (r2, right') =>
      .ok (r2, .binary left' operator right')
    | .logical left operator right =>
      rBind (resolveExpr fuel r left) fun (r1, left') =>
      rBind (resolveExpr fuel r1 right) fun (r2, right') =>
      .ok (r2, .logical left' operator right')
    | .var name _ =>
      let distance := r.scopeDistance name
      match distance with
      | some dist =>
        let scopeIndex := r.scopes.length - 1 - dist
        match r.scopes.get? scopeIndex with
        | some scope =>
          match aListLookup scope name with
          | some defined =>
            if ¬ defined ∧ scopeIndex ≠ 0 then
              .err (.message "Can't read local variable in its own initializer")
            else .ok (r, .var name (some dist))
          | Option.none => .ok (r, .var name (some dist))
        | Option.none => .ok (r, .var name (some dist))
      | Option.none => .ok (r, .var name none)
    | .this _ =>
      if r.currentClass ≠ .classType then
        .err (.message "Cannot use 'this' outside of a class.")
      else .ok (r, .this (r.scopeDistance "this"))
    | .assign name value _ =>
      rBind (resolveExpr fuel r value) fun (r1, value') =>
      .ok (r1, .assign name value' (r1.scopeDistance name))
    | .call callee args =>
      rBind (resolveExpr fuel r callee) fun (r1, callee') =>
      rBind (resolveExprList fuel r1 args) fun (r2, args') =>
      .ok (r2, .call callee' args')
    | .set object property value =>
      rBind (resolveExpr fuel r object) fun (r1, object') =>
      rBind (resolveExpr fuel r1 value) fun (r2, value') =>
      .ok (r2, .set object' property value')
    | .get object name =>
      rBind (resolveExpr fuel r object) fun (r1, object') =>
      .ok (r1, .get object' name)

/-- The argument loop inside the `Call` arm of `resolve_expr`. -/
def resolveExprList : Nat → Resolver → List Expression →
    ROut (Resolver × List Expression)
  | 0, _, _ => .fuel
  | _ + 1, r, [] => .ok (r, [])
  | fuel + 1, r, e :: rest =>
    rBind (resolveExpr fuel r e) fun (r1, e') =>
    rBind (resolveExprList fuel r1 rest) fun (r2, rest') =>
    .ok (r2, e' :: rest')

end

/-! ## Runtime values (`interpreter.rs`, `lox_class.rs`, `lox_instance.rs`)

`Rc<RefCell<Environment>>` and the instance field map
`Rc<RefCell<HashMap<String, Value>>>` are modelled as indices (`Nat`) into
heaps held by the interpreter state; `Clone` on a handle copies the index,
so every clone shares the underlying cell.  None of `LoxFunction`,
`LoxClass`, `LoxInstance` contain values directly, so they need no mutual
recursion with `Value`. -/

/-- Model of `LoxFunction` (interpreter.rs lines 66–73); `environment` is the id of
the captured closure environment. -/
structure LoxFunction where
  name : String
  params : List String
  body : List Statement
  environment : Nat
  isInitializer : Bool

/-- Model of `LoxClass` (lox_class.rs lines 5–10); the `methods` map is only filled
before the class value is shared, so it is stored immutably here. -/
inductive LoxClass where
  | mk (name : String) (superclass : Option LoxClass)
      (methods : List (String × LoxFunction))

def LoxClass.name : LoxClass → String
  | .mk n _ _ => n

def LoxClass.superclass : LoxClass → Option LoxClass
  | .mk _ s _ => s

def LoxClass.methods : LoxClass → List (String × LoxFunction)
  | .mk _ _ m => m

/-- Model of `LoxClass::find_method`: own map first, then the superclass chain. -/
def LoxClass.findMethod : LoxClass → String → Option LoxFunction
  | .mk _ superclass methods, name =>
    match aListLookup methods name with
    | some m => some m
    | none =>
      match superclass with
      | some s => s.findMethod name
      | none => none

/-- Model of `LoxInstance` (lox_instance.rs lines 5–9): the class and the id of the
shared field map (`Rc<RefCell<HashMap<String, Value>>>`); `#[derive(Clone)]`
copies both, so clones share the field map. -/
structure LoxInstance where
  cls : LoxClass
  fields : Nat

/-- Model of `LoxInstance::find_method`: **only** the class's own method map
(`self.class.methods.borrow().get(name)`), not the superclass chain. -/
def LoxInstance.findMethod (i : LoxInstance) (name : String) : Option LoxFunction :=
  aListLookup i.cls.methods name

/-- Model of `LoxInstance::name`. -/
def LoxInstance.displayName (i : LoxInstance) : String :=
  i.cls.name ++ " instance"

/-- Model of `BoundMethod` (interpreter.rs lines 108–112). -/
structure BoundMethod where
  function : LoxFunction
  receiver : LoxInstance

/-- The closed set of `Rc<dyn Callable>` implementors that can sit inside
`Value::Function`: `LoxFunction`, `BoundMethod` and `NativeFunction`
(only `clock`; its host-time result is not observable purely and is
returned as the number 0, which no claim inspects). -/
inductive Callable where
  | lox (f : LoxFunction)
  | bound (m : BoundMethod)
  | native (name : String) (arity : Nat)

/-- Model of `Value` (interpreter.rs lines 13–22). -/
inductive Value where
  | num (n : F64)
  | bool (b : Bool)
  | nil
  | str (s : String)
  | func (c : Callable)
  | cls (c : LoxClass)
  | inst (i : LoxInstance)

/-- Model of `LoxFunction::arity`. -/
def LoxFunction.arity (f : LoxFunction) : Nat := f.params.length

/-- Model of `LoxClass::arity` (`find_method("init").map_or(0, arity)`); defined in
the source but never consulted by the class branch of `visit_call_expr`. -/
def LoxClass.arity (c : LoxClass) : Nat :=
  match c.findMethod "init" with
  | some init => init.arity
  | none => 0

/-- Model of `Callable::arity` dispatch. -/
def Callable.arity : Callable → Nat
  | .lox f => f.arity
  | .bound m => m.function.arity
  | .native _ a => a

/-- Model of `Callable::name` dispatch. -/
def Callable.displayName : Callable → String
  | .lox f => f.name
  | .bound m =>
    "<bound method " ++ m.function.name ++ " of " ++ m.receiver.displayName ++ ">"
  | .native n _ => n

/-- Model of `ExitCode` (interpreter.rs lines 38–42). -/
inductive ExitCode where
  | runTimeError
  | compilerError
  deriving DecidableEq, Repr

/-- Model of `impl From<ExitCode> for i32` (interpreter.rs lines 44–51). -/
def ExitCode.toI32 : ExitCode → Int
  | .compilerError => 65
  | .runTimeError => 70

/-- Model of `InterpreterError` (interpreter.rs lines 53–58). -/
inductive IErr where
  | message (s : String) (code : ExitCode)
  | undefinedVariable (s : String)
  | returnError (v : Value)

/-- Model of `Environment` (interpreter.rs lines 60–64); `enclosing` is an id into
the environment heap. -/
structure Environment where
  enclosing : Option Nat
  values : List (String × Value)

/-- The interpreter state: the two heaps that model the `Rc<RefCell<·>>`
cells, the current environment id, and the stdout lines written by
`println!`.  `Interpreter::locals` (and `Interpreter::resolve`) are never
read and are omitted. -/
structure Interpreter where
  envs : List Environment
  fieldMaps : List (List (String × Value))
  environment : Nat
  output : List String

/-- Allocate a fresh environment cell. -/
def allocEnv (st : Interpreter) (e : Environment) : Interpreter × Nat :=
  ({ st with envs := st.envs ++ [e] }, st.envs.length)

/-- Model of `Environment::new_enclosed`. -/
def newEnclosed (st : Interpreter) (enclosing : Nat) : Interpreter × Nat :=
  allocEnv st ⟨some enclosing, []⟩

/-- Model of `Environment::define` on the environment with id `id`. -/
def envDefine (st : Interpreter) (id : Nat) (name : String) (v : Value) :
    Interpreter :=
  { st with
    envs := listModify (fun e => { e with values := aListInsert e.values name v })
      st.envs id }

/-- Model of `Environment::get`: the chain walk.  The fuel bounds the chain length;
in every state the interpreter constructs, `enclosing` ids point at
earlier-allocated cells, so `envs.length + 1` always suffices (the Rust
walk terminates because `Rc` chains are acyclic by construction). -/
def envGetAux : Nat → Interpreter → Nat → String → Option Value
  | 0, _, _, _ => none
  | fuel + 1, st, id, name =>
    match st.envs.get? id with
    | none => none
    | some env =>
      match aListLookup env.values name with
      | some v => some v
      | none =>
        match env.enclosing with
        | some parent => envGetAux fuel st parent name
        | none => none

def envGet (st : Interpreter) (id : Nat) (name : String) : Option Value :=
  envGetAux (st.envs.length + 1) st id name

/-- Model of `Environment::assign`: walk outward to the first defining environment;
returns whether a binding was found. -/
def envAssignAux : Nat → Interpreter → Nat → String → Value → Interpreter × Bool
  | 0, st, _, _, _ => (st, false)
  | fuel + 1, st, id, name, v =>
    match st.envs.get? id with
    | none => (st, false)
    | some env =>
      if (aListLookup env.values name).isSome then
        ({ st with
          envs := listModify
            (fun e => { e with values := aListInsert e.values name v }) st.envs id },
          true)
      else
        match env.enclosing with
        | some parent => envAssignAux fuel st parent name v
        | none => (st, false)

def envAssign (st : Interpreter) (id : Nat) (name : String) (v : Value) :
    Interpreter × Bool :=
  envAssignAux (st.envs.length + 1) st id name v

/-- The distance loop shared by `Interpreter::get_at` / `assign_at`: ascend
exactly `distance` enclosing links (`None` when the chain is too short). -/
def walkUp (st : Interpreter) : Nat → Nat → Option Nat
  | 0, id => some id
  | distance + 1, id =>
    match st.envs.get? id with
    | none => none
    | some env =>
      match env.enclosing with
      | some parent => walkUp st distance parent
      | none => none

/-- Model of `Interpreter::get_at`: after ascending, a direct (non-walking) read. -/
def getAt (st : Interpreter) (id distance : Nat) (name : String) : Option Value :=
  match walkUp st distance id with
  | none => none
  | some eid =>
    match st.envs.get? eid with
    | none => none
    | some env => aListLookup env.values name

/-- Model of `Interpreter::assign_at`: after ascending, a direct insert (silent
no-op when the chain is too short, as in the source's early `return`). -/
def assignAt (st : Interpreter) (id distance : Nat) (name : String) (v : Value) :
    Interpreter :=
  match walkUp st distance id with
  | none => st
  | some eid =>
    { st with
      envs := listModify
        (fun e => { e with values := aListInsert e.values name v }) st.envs eid }

/-- Allocate a fresh (empty) instance field map: `LoxInstance::new`. -/
def allocFields (st : Interpreter) : Interpreter × Nat :=
  ({ st with fieldMaps := st.fieldMaps ++ [[]] }, st.fieldMaps.length)

/-- Read a field from an instance field map. -/
def fieldsGet (st : Interpreter) (fid : Nat) (name : String) : Option Value :=
  match st.fieldMaps.get? fid with
  | none => none
  | some m => aListLookup m name

/-- Model of `LoxInstance::set`: write through the shared field map. -/
def LoxInstance.set (st : Interpreter) (i : LoxInstance) (name : String)
    (v : Value) : Interpreter :=
  { st with fieldMaps := listModify (fun m => aListInsert m name v) st.fieldMaps i.fields }

/-- Model of `LoxInstance::get` (lox_instance.rs lines 19–35): fields first, then the
instance's own `find_method`; a found method is wrapped as a `BoundMethod`
whose instance is `self.clone()` (sharing the field map); otherwise the
"Undefined property" runtime error. -/
def LoxInstance.get (st : Interpreter) (i : LoxInstance) (name : String) :
    Except IErr Value :=
  match fieldsGet st i.fields name with
  | some v => .ok v
  | none =>
    match i.findMethod name with
    | some method => .ok (.func (.bound ⟨method, i⟩))
    | none =>
      .error (.message ("Undefined property '" ++ name ++ "'.") .runTimeError)

/-- Model of `is_truthy` (interpreter.rs lines 861–867). -/
def is_truthy : Value → Bool
  | .bool v => v
  | .nil => false
  | _ => true

/-- Model of `is_equal` (interpreter.rs lines 869–878). -/
def is_equal : Value → Value → Bool
  | .nil, .nil => true
  | .nil, _ => false
  | _, .nil => false
  | .bool b1, .bool b2 => b1 == b2
  | .num n1, .num n2 => F64.feq n1 n2
  | .str s1, .str s2 => s1 == s2
  | _, _ => false

/-- Model of `Display` for `Value` (interpreter.rs lines 847–859). -/
def Value.display : Value → String
  | .num v => v.display
  | .bool v => if v then "true" else "false"
  | .nil => "nil"
  | .str v => v
  | .func c => "<fn " ++ c.displayName ++ ">"
  | .cls c => c.name
  | .inst i => i.displayName

/-- The match of `visit_unary_expr` (interpreter.rs lines 764–785) applied
to the already-evaluated operand; note the catch-all arm returns the
operand unchanged. -/
def unaryOp (op : TokenKind) (value : Value) : Except IErr Value :=
  match op with
  | .minus =>
    match value with
    | .num v => .ok (.num v.neg)
    | _ => .error (.message "Operand must be a number." .runTimeError)
  | .bang =>
    match value with
    | .bool v => .ok (.bool (!v))
    | .nil => .ok (.bool true)
    | _ => .ok (.bool false)
  | _ => .ok value

/-- The match of `visit_binary_expr` (interpreter.rs lines 787–832) applied
to the already-evaluated operands, arms in source order. -/
def binaryOp (left : Value) (op : TokenKind) (right : Value) : Except IErr Value :=
  match left, op, right with
  | .num n, .plus, .num n1 => .ok (.num (n.add n1))
  | .str s, .plus, .str s1 => .ok (.str (s ++ s1))
  | .num n, .minus, .num n1 => .ok (.num (n.sub n1))
  | .num n, .star, .num n1 => .ok (.num (n.mul n1))
  | .num n, .slash, .num n1 => .ok (.num (n.div n1))
  | .num n, .greater, .num n1 => .ok (.bool (n.fgt n1))
  | .num n, .less, .num n1 => .ok (.bool (n.flt n1))
  | .num n, .greaterEqual, .num n1 => .ok (.bool (n.fge n1))
  | .num n, .lessEqual, .num n1 => .ok (.bool (n.fle n1))
  | l, .equalEqual, r => .ok (.bool (is_equal l r))
  | l, .bangEqual, r => .ok (.bool (!is_equal l r))
  | _, _, _ => .error (.message "Unsupported operation" .runTimeError)

/-- Result of an interpreter step: `Result<α, InterpreterError>` plus the
fuel/panic artefacts of the embedding. -/
inductive IRes (α : Type) where
  | ok (a : α)
  | err (e : IErr)
  | fuel
  | crash

/-- Sequencing with `?`: the state threads through, errors short-circuit. -/
def iBind {α β : Type} (r : Interpreter × IRes α)
    (k : Interpreter → α → Interpreter × IRes β) : Interpreter × IRes β :=
  match r with
  | (st, .ok a) => k st a
  | (st, .err e) => (st, .err e)
  | (st, .fuel) => (st, .fuel)
  | (st, .crash) => (st, .crash)

def liftE {α : Type} (r : Except IErr α) : IRes α :=
  match r with
  | .ok a => .ok a
  | .error e => .err e

/-- Model of `visit_literal_expr`. -/
def litValue : Literal → Value
  | .num v => .num v
  | .bool v => .bool v
  | .nil => .nil
  | .str v => .str v

/-- Bind parameters by position: `params.iter().zip(args.iter())` — the zip
silently drops extra arguments and leaves extra parameters unbound. -/
def bindParams (st : Interpreter) (envId : Nat) :
    List String → List Value → Interpreter
  | name :: ps, value :: vs => bindParams (envDefine st envId name value) envId ps vs
  | _, _ => st

/-- The method-compilation loop of `visit_class`: each `Statement::Function`
becomes a `LoxFunction` closing over the class closure environment, with
`is_initializer = (name == "init")`; inserted via `create_method`.  A
non-function member is `unreachable!()`. -/
def buildMethods (closureId : Nat) :
    List Statement → List (String × LoxFunction) → Option (List (String × LoxFunction))
  | [], acc => some acc
  | .function methodName params body :: rest, acc =>
    buildMethods closureId rest
      (aListInsert acc methodName ⟨methodName, params, body, closureId, methodName = "init"⟩)
  | _ :: _, _ => none

mutual

/-- Model of `Interpreter::evaluate` (interpreter.rs lines 620–751). -/
def evaluate : Nat → Interpreter → Expression → Interpreter × IRes Value
  | 0, st, _ => (st, .fuel)
  | fuel + 1, st, expr =>
    match expr with
    | .literal l => (st, .ok (litValue l))
    | .unary operator expression =>
      iBind (evaluate fuel st expression) fun st1 value =>
      (st1, liftE (unaryOp operator value))
    | .group inner => evaluate fuel st inner
    | .var name resolved =>
      match resolved with
      | some distance =>
        match getAt st st.environment distance name with
        | some v => (st, .ok v)
        | none => (st, .err (.undefinedVariable name))
      | none =>
        match envGet st st.environment name with
        | some v => (st, .ok v)
        | none => (st, .err (.undefinedVariable name))
    | .assign name value resolved =>
      iBind (evaluate fuel st value) fun st1 newValue =>
      match resolved with
      | some distance =>
        (assignAt st1 st1.environment distance name newValue, .ok newValue)
      | none =>
        match envAssign st1 st1.environment name newValue with
        | (st2, true) => (st2, .ok newValue)
        | (st2, false) => (st2, .err (.undefinedVariable name))
    | .logical left operator right => visit_logical fuel st left operator right
    | .call callee args => visit_call_expr fuel st callee args
    | .get object name => visit_get_expr fuel st object name
    | .set object property value => visit_set_expr fuel st object property value
    | .this resolved =>
      match resolved with
      | some distance =>
        match getAt st st.environment distance "this" with
        | none => (st, .err (.undefinedVariable "this"))
        | some v =>
          match v with
          | .inst _ => (st, .ok v)
          | _ =>
            (st, .err (.message "Expected an instance for 'this'." .runTimeError))
      | none => (st, .err (.message "Cannot use 'this' here." .runTimeError))
    | .binary left operator right =>
      iBind (evaluate fuel st left) fun st1 l =>
      iBind (evaluate fuel st1 right) fun st2 r =>
      (st2, liftE (binaryOp l operator r))

/-- Model of `visit_logical` (interpreter.rs lines 247–264). -/
def visit_logical :
    Nat → Interpreter → Expression → TokenKind → Expression → Interpreter × IRes Value
  | 0, st, _, _, _ => (st, .fuel)
  | fuel + 1, st, left, operator, right =>
    iBind (evaluate fuel st left) fun st1 leftValue =>
    if operator = .kwOr then
      if is_truthy leftValue then (st1, .ok leftValue)
      else evaluate fuel st1 right
    else if operator = .kwAnd ∧ ¬ is_truthy leftValue then (st1, .ok leftValue)
    else evaluate fuel st1 right

/-- Model of `visit_get_expr` (interpreter.rs lines 509–522). -/
def visit_get_expr :
    Nat → Interpreter → Expression → String → Interpreter × IRes Value
  | 0, st, _, _ => (st, .fuel)
  | fuel + 1, st, expr, name =>
    iBind (evaluate fuel st expr) fun st1 value =>
    match value with
    | .inst receiver => (st1, liftE (receiver.get st1 name))
    | _ => (st1, .err (.message "Only instances have properties." .runTimeError))

/-- Model of `visit_set_expr` (interpreter.rs lines 524–542). -/
def visit_set_expr :
    Nat → Interpreter → Expression → String → Expression → Interpreter × IRes Value
  | 0, st, _, _, _ => (st, .fuel)
  | fuel + 1, st, expr, name, value =>
    iBind (evaluate fuel st expr) fun st1 objectValue =>
    match objectValue with
    | .inst receiver =>
      iBind (evaluate fuel st1 value) fun st2 v =>
      (LoxInstance.set st2 receiver name v, .ok v)
    | _ => (st1, .err (.message "Only instances have fields." .runTimeError))

/-- Model of `visit_call_expr` (interpreter.rs lines 384–419): the `Function` branch
checks arity before evaluating the arguments; the `Class` branch performs
no arity check at all. -/
def visit_call_expr :
    Nat → Interpreter → Expression → List Expression → Interpreter × IRes Value
  | 0, st, _, _ => (st, .fuel)
  | fuel + 1, st, callee, args =>
    iBind (evaluate fuel st callee) fun st1 calleeValue =>
    visit_call_with_callee fuel st1 calleeValue args

/-- The body of `visit_call_expr` after the callee has been evaluated. -/
def visit_call_with_callee :
    Nat → Interpreter → Value → List Expression → Interpreter × IRes Value
  | 0, st, _, _ => (st, .fuel)
  | fuel + 1, st, calleeValue, args =>
    match calleeValue with
    | .func function =>
      if function.arity ≠ args.length then
        (st, .err (.message ("Expected " ++ toString function.arity ++
          " arguments but got " ++ toString args.length ++ ".") .runTimeError))
      else
        iBind (evalArgs fuel st args) fun st1 argValues =>
        callableCall fuel st1 function argValues
    | .cls class' =>
      iBind (evalArgs fuel st args) fun st1 argValues =>
      loxClassCall fuel st1 class' argValues
    | _ =>
      (st, .err (.message "Can only call functions and classes." .runTimeError))

/-- Left-to-right argument evaluation. -/
def evalArgs : Nat → Interpreter → List Expression → Interpreter × IRes (List Value)
  | 0, st, _ => (st, .fuel)
  | _ + 1, st, [] => (st, .ok [])
  | fuel + 1, st, e :: rest =>
    iBind (evaluate fuel st e) fun st1 v =>
    iBind (evalArgs fuel st1 rest) fun st2 vs =>
    (st2, .ok (v :: vs))

/-- Model of `Callable::call` dispatch on the closed implementor set. -/
def callableCall : Nat → Interpreter → Callable → List Value → Interpreter × IRes Value
  | 0, st, _, _ => (st, .fuel)
  | fuel + 1, st, c, args =>
    match c with
    | .lox f => loxFunctionCall fuel st f args
    | .bound m => boundMethodCall fuel st m args
    | .native _ _ => (st, .ok (.num ⟨0, 1⟩))

/-- Model of `impl Callable for LoxFunction::call` (interpreter.rs lines 75–106):
fresh environment over the closure, parameters bound by zip, and the old
environment restored before the result is inspected. -/
def loxFunctionCall :
    Nat → Interpreter → LoxFunction → List Value → Interpreter × IRes Value
  | 0, st, _, _ => (st, .fuel)
  | fuel + 1, st, f, args =>
    let oldEnv := st.environment
    let (st1, newEnv) := newEnclosed st f.environment
    let st2 := bindParams st1 newEnv f.params args
    let st3 := { st2 with environment := newEnv }
    match visit_block fuel st3 f.body with
    | (st4, result) =>
      let st5 := { st4 with environment := oldEnv }
      match result with
      | .ok _ => (st5, .ok .nil)
      | .err (.returnError v) => (st5, .ok v)
      | .err e => (st5, .err e)
      | .fuel => (st5, .fuel)
      | .crash => (st5, .crash)

/-- Model of `impl Callable for BoundMethod::call` (interpreter.rs lines 114–151):
like `LoxFunction::call` but also binds `this`, and an initializer returns
the instance whatever the body does. -/
def boundMethodCall :
    Nat → Interpreter → BoundMethod → List Value → Interpreter × IRes Value
  | 0, st, _, _ => (st, .fuel)
  | fuel + 1, st, m, args =>
    let oldEnv := st.environment
    let (st1, newEnv) := newEnclosed st m.function.environment
    let st2 := bindParams st1 newEnv m.function.params args
    let st3 := envDefine st2 newEnv "this" (.inst m.receiver)
    let st4 := { st3 with environment := newEnv }
    match visit_block fuel st4 m.function.body with
    | (st5, result) =>
      let st6 := { st5 with environment := oldEnv }
      match result with
      | .ok _ =>
        if m.function.isInitializer then (st6, .ok (.inst m.receiver))
        else (st6, .ok .nil)
      | .err (.returnError v) =>
        if m.function.isInitializer then (st6, .ok (.inst m.receiver))
        else (st6, .ok v)
      | .err e => (st6, .err e)
      | .fuel => (st6, .fuel)
      | .crash => (st6, .crash)

/-- Model of `impl Callable for LoxClass::call` (lox_class.rs lines 37–55): allocate
the instance, call `init` bound to it when present (no arity check), return
the instance. -/
def loxClassCall :
    Nat → Interpreter → LoxClass → List Value → Interpreter × IRes Value
  | 0, st, _, _ => (st, .fuel)
  | fuel + 1, st, c, args =>
    let (st1, fid) := allocFields st
    let newInstance : LoxInstance := ⟨c, fid⟩
    match c.findMethod "init" with
    | some initializer =>
      iBind (boundMethodCall fuel st1 ⟨initializer, newInstance⟩ args) fun st2 _ =>
      (st2, .ok (.inst newInstance))
    | none => (st1, .ok (.inst newInstance))

/-- Model of `visit_stmt` (interpreter.rs lines 278–361). -/
def visit_stmt : Nat → Interpreter → Statement → Interpreter × IRes Unit
  | 0, st, _ => (st, .fuel)
  | fuel + 1, st, stmt =>
    match stmt with
    | .print e =>
      iBind (evaluate fuel st e) fun st1 v =>
      ({ st1 with output := st1.output ++ [v.display] }, .ok ())
    | .expr e =>
      iBind (evaluate fuel st e) fun st1 _ => (st1, .ok ())
    | .varDecl name initializer =>
      iBind
        (match initializer with
         | some e => evaluate fuel st e
         | none => (st, .ok Value.nil))
        fun st1 value =>
      (envDefine st1 st1.environment name value, .ok ())
    | .block list =>
      let (st1, newEnv) := newEnclosed st st.environment
      let oldEnv := st.environment
      let st2 := { st1 with environment := newEnv }
      -- `self.visit_block(list)?;` — on error the old environment is NOT
      -- restored (the `?` returns before the assignment)
      iBind (visit_block fuel st2 list) fun st3 _ =>
      ({ st3 with environment := oldEnv }, .ok ())
    | .ifStmt condition thenBranch elseBranch =>
      iBind (visit_if fuel st condition thenBranch elseBranch) fun st1 _ =>
      (st1, .ok ())
    | .whileStmt condition body => visit_while fuel st condition body
    | .forStmt initStmt condition increment body =>
      let previous := st.environment
      let (st1, loopEnv) := newEnclosed st previous
      let st2 := { st1 with environment := loopEnv }
      iBind
        (match initStmt with
         | some i => visit_stmt fuel st2 i
         | none => (st2, .ok ()))
        fun st3 _ =>
      -- on error inside the loop the previous environment is NOT restored
      iBind (forLoop fuel st3 condition increment body) fun st4 _ =>
      ({ st4 with environment := previous }, .ok ())
    | .function name params body =>
      -- `visit_function_stms`
      let f : LoxFunction := ⟨name, params, body, st.environment, false⟩
      (envDefine st st.environment name (.func (.lox f)), .ok ())
    | .ret value =>
      -- `visit_return_stms`
      iBind
        (match value with
         | some e => evaluate fuel st e
         | none => (st, .ok Value.nil))
        fun st1 returnValue =>
      (st1, .err (.returnError returnValue))
    | .classDecl name superclass methods =>
      iBind (visit_class fuel st name superclass methods) fun st1 _ =>
      (st1, .ok ())

/-- The `loop { ... }` of the `For` arm. -/
def forLoop :
    Nat → Interpreter → Option Expression → Option Expression → Statement →
    Interpreter × IRes Unit
  | 0, st, _, _, _ => (st, .fuel)
  | fuel + 1, st, condition, increment, body =>
    iBind
      (match condition with
       | some con =>
         iBind (evaluate fuel st con) fun st1 v => (st1, .ok (is_truthy v))
       | none => (st, .ok true))
      fun st1 continue' =>
    if continue' then
      iBind (visit_stmt fuel st1 body) fun st2 _ =>
      iBind
        (match increment with
         | some inc =>
           iBind (evaluate fuel st2 inc) fun st3 v => (st3, .ok v)
         | none => (st2, .ok Value.nil))
        fun st3 _ =>
      forLoop fuel st3 condition increment body
    else (st1, .ok ())

/-- Model of `visit_block` (interpreter.rs lines 362–367): run the statements in
order in the current environment. -/
def visit_block : Nat → Interpreter → List Statement → Interpreter × IRes Unit
  | 0, st, _ => (st, .fuel)
  | _ + 1, st, [] => (st, .ok ())
  | fuel + 1, st, s :: rest =>
    iBind (visit_stmt fuel st s) fun st1 _ =>
    visit_block fuel st1 rest

/-- Model of `visit_if_stms`. -/
def visit_if :
    Nat → Interpreter → Expression → Statement → Option Statement →
    Interpreter × IRes Unit
  | 0, st, _, _, _ => (st, .fuel)
  | fuel + 1, st, condition, thenBranch, elseBranch =>
    iBind (evaluate fuel st condition) fun st1 v =>
    if is_truthy v then visit_stmt fuel st1 thenBranch
    else
      match elseBranch with
      | some stmt => visit_stmt fuel st1 stmt
      | none => (st1, .ok ())

/-- Model of `visit_while`. -/
def visit_while :
    Nat → Interpreter → Expression → Statement → Interpreter × IRes Unit
  | 0, st, _, _ => (st, .fuel)
  | fuel + 1, st, condition, body =>
    iBind (evaluate fuel st condition) fun st1 v =>
    if is_truthy v then
      iBind (visit_stmt fuel st1 body) fun st2 _ =>
      visit_while fuel st2 condition body
    else (st1, .ok ())

/-- Model of `visit_class` (interpreter.rs lines 445–507): define the name as nil,
resolve the superclass name to a class value (runtime error otherwise),
build the closure environment (with `super` when there is a superclass),
compile the methods, then `assign` the finished class over the nil. -/
def visit_class :
    Nat → Interpreter → String → Option String → List Statement →
    Interpreter × IRes Unit
  | 0, st, _, _, _ => (st, .fuel)
  | _ + 1, st, name, superclass, methods =>
    let st1 := envDefine st st.environment name .nil
    let superRes : IRes (Option LoxClass) :=
      match superclass with
      | some superName =>
        match envGet st1 st1.environment superName with
        | some (.cls c) => .ok (some c)
        | some _ =>
          .err (.message ("Undefined superclass '" ++ superName ++ "'.") .runTimeError)
        | none =>
          .err (.message ("Undefined superclass '" ++ superName ++ "'.") .runTimeError)
      | none => .ok none
    match superRes with
    | .ok superclassValue =>
      let (st2, closureId) := newEnclosed st1 st1.environment
      let st3 :=
        match superclassValue with
        | some sclass => envDefine st2 closureId "super" (.cls sclass)
        | none => st2
      match buildMethods closureId methods [] with
      | some methodMap =>
        let class' : LoxClass := .mk name superclassValue methodMap
        let (st4, _) := envAssign st3 st3.environment name (.cls class')
        (st4, .ok ())
      | none => (st3, .crash)
    | .err e => (st1, .err e)
    | .fuel => (st1, .fuel)
    | .crash => (st1, .crash)

end

/-- Model of `Interpreter::new` (interpreter.rs lines 212–234): the global
environment holds the native `clock`. -/
def Interpreter.new : Interpreter :=
  { envs := [⟨none, [("clock", .func (.native "clock" 0))]⟩],
    fieldMaps := [], environment := 0, output := [] }

/-- The statement loop at the end of `Interpreter::run`. -/
def runStmts : Nat → Interpreter → List Statement → Interpreter × IRes Unit
  | 0, st, _ => (st, .fuel)
  | _ + 1, st, [] => (st, .ok ())
  | fuel + 1, st, s :: rest =>
    iBind (visit_stmt (fuel + 1) st s) fun st1 _ =>
    runStmts fuel st1 rest

/-- Model of `Interpreter::run` (interpreter.rs lines 546–563): resolve, mapping a
resolver error to `Message("Resolution error: …", CompilerError)`, then
execute the resolved statements. -/
def Interpreter.run (fuel : Nat) (stmt : List Statement) : Interpreter × IRes Unit :=
  match resolveStmts fuel Resolver.new stmt with
  | .err e =>
    (Interpreter.new,
     .err (.message ("Resolution error: " ++ e.display) .compilerError))
  | .fuel => (Interpreter.new, .fuel)
  | .crash => (Interpreter.new, .crash)
  | .ok (_, resolved) => runStmts fuel Interpreter.new resolved

/-- The `Run` sub-command of `main` (main.rs lines 89–106): parse errors
exit 65; **every** `Interpreter::run` error exits 70 (the error's own
`ExitCode` is ignored).  `some (some n)` = `process::exit(n)`,
`some none` = normal termination, `none` = the embedding ran out of fuel. -/
def mainRunExit (fuel : Nat) (fileContent : String) : Option (Option Nat) :=
  match pParseStatements fuel (ParserSt.new fileContent) with
  | (_, .ok stmt) =>
    match Interpreter.run fuel stmt with
    | (_, .ok _) => some none
    | (_, .err _) => some (some 70)
    | (_, .fuel) => none
    | (_, .crash) => none
  | (_, .err _) => some (some 65)
  | (_, .fuel) => none
  | (_, .crash) => none

/-- The `Run` pipeline's standard output: `none` when the program does not
parse and run to completion, `some lines` otherwise. -/
def runOutput (fuel : Nat) (src : String) : Option (List String) :=
  match pParseStatements fuel (ParserSt.new src) with
  | (_, .ok stmt) =>
    match Interpreter.run fuel stmt with
    | (st, .ok _) => some st.output
    | _ => none
  | _ => none

/-! ## Concrete fixtures used by the claim theorems -/

/-- A parameterless method `greet` with empty body, closing over environment 0. -/
def greetMethod : LoxFunction := ⟨"greet", [], [], 0, false⟩

/-- Superclass `A` carrying the method `greet`. -/
def classA : LoxClass := .mk "A" none [("greet", greetMethod)]

/-- Subclass `B < A` with no methods of its own. -/
def classB : LoxClass := .mk "B" (some classA) []

/-- A state whose heap holds one (empty) instance field map, with id 0. -/
def sharedFieldsSt : Interpreter := ⟨[], [[]], 0, []⟩

/-- A class with no methods at all, hence no `init`. -/
def classC : LoxClass := .mk "C" none []

/-- A global environment binding `C` to `classC` next to the native `clock`. -/
def stWithC : Interpreter :=
  { envs := [⟨none, [("clock", .func (.native "clock" 0)), ("C", .cls classC)]⟩],
    fieldMaps := [], environment := 0, output := [] }

/-- Class `Counter` whose `init(n)` reads its parameter `n` (resolved depth 0). -/
def counterClass : LoxClass :=
  .mk "Counter" none [("init", ⟨"init", ["n"], [.expr (.var "n" (some 0))], 0, true⟩)]

/-- A global environment binding `Counter` to `counterClass`. -/
def stWithCounter : Interpreter :=
  { envs := [⟨none, [("Counter", .cls counterClass)]⟩],
    fieldMaps := [], environment := 0, output := [] }

/-- Class `P` whose `init(n)` prints its parameter `n`. -/
def printerClass : LoxClass :=
  .mk "P" none [("init", ⟨"init", ["n"], [.print (.var "n" (some 0))], 0, true⟩)]

/-- A global environment binding `P` to `printerClass`. -/
def stWithPrinter : Interpreter :=
  { envs := [⟨none, [("P", .cls printerClass)]⟩],
    fieldMaps := [], environment := 0, output := [] }

/-- A parameterless function with empty body, closing over environment 0. -/
def idFunction : LoxFunction := ⟨"f", [], [], 0, false⟩

/-! ## Shared lemmas about the heap primitives -/

/-- Reading back the modified index of `listModify`. -/
theorem listModify_getElem_eq {α : Type} (f : α → α) (l : List α) (i : Nat) :
    (listModify f l i)[i]? = (l[i]?).map f := by
  induction l generalizing i with
  | nil => cases i <;> simp [listModify]
  | cons a rest ih =>
    cases i with
    | zero => simp [listModify]
    | succ n => simpa [listModify] using ih n

/-- An inserted binding is what lookup returns. -/
theorem aListInsert_lookup {α : Type} (m : List (String × α)) (k : String) (v : α) :
    aListLookup (aListInsert m k v) k = some v := by
  induction m with
  | nil => simp [aListInsert, aListLookup]
  | cons p rest ih =>
    obtain ⟨k1, v1⟩ := p
    by_cases hk : k1 = k <;> simp [aListInsert, aListLookup, hk, ih]

/-! ## Claim theorems -/

/-- C1: running the one-statement program `print 1 + 2 * 3;` through the
run pipeline (parse_statements, then resolve, then interpret) writes
exactly one line, `7`, to standard output, and the `run` sub-command
terminates normally. -/
theorem claim1_print_seven :
    runOutput 99 "print 1 + 2 * 3;" = some ["7"]
    ∧ mainRunExit 99 "print 1 + 2 * 3;" = some none :=
  ⟨rfl, rfl⟩

/-- C2 counterexample: an instance of subclass `B < A` with an empty field
map cannot access the method `greet` defined only on the superclass `A`:
`LoxInstance::get` raises "Undefined property 'greet'." even though
`LoxClass::find_method` does find `greet` through the superclass chain —
property access uses `LoxInstance::find_method`, which consults only the
instance's own class method map. -/
theorem claim2_superclass_method_cex :
    LoxInstance.get sharedFieldsSt ⟨classB, 0⟩ "greet"
      = .error (.message "Undefined property 'greet'." .runTimeError)
    ∧ LoxClass.findMethod classB "greet" = some greetMethod :=
  ⟨rfl, rfl⟩

/-- C2 (amended): property access on an instance first checks the field
map; when the name is not a field, the method is looked up only in the
instance's class's **own** method table (the superclass chain is not
consulted); a found method is returned as a bound method capturing the
instance, and otherwise the runtime error "Undefined property 'name'." is
raised — so a subclass instance cannot access a method defined only on the
superclass. -/
theorem claim2_property_access (st : Interpreter) (i : LoxInstance) (name : String) :
    (∀ v, fieldsGet st i.fields name = some v →
      LoxInstance.get st i name = .ok v)
    ∧ (∀ m, fieldsGet st i.fields name = none →
        aListLookup i.cls.methods name = some m →
        LoxInstance.get st i name = .ok (.func (.bound ⟨m, i⟩)))
    ∧ (fieldsGet st i.fields name = none →
        aListLookup i.cls.methods name = none →
        LoxInstance.get st i name =
          .error (.message ("Undefined property '" ++ name ++ "'.") .runTimeError)) := by
  refine ⟨fun v h => ?_, fun m h1 h2 => ?_, fun h1 h2 => ?_⟩
  · simp [LoxInstance.get, h]
  · simp [LoxInstance.get, LoxInstance.findMethod, h1, h2]
  · simp [LoxInstance.get, LoxInstance.findMethod, h1, h2]

/-- C2 witness: the amended theorem applied to a concrete instance and a
name that is neither a field nor a method. -/
theorem claim2_property_access_witness :
    LoxInstance.get sharedFieldsSt ⟨classB, 0⟩ "missing"
      = .error (.message ("Undefined property '" ++ "missing" ++ "'.") .runTimeError) :=
  (claim2_property_access sharedFieldsSt ⟨classB, 0⟩ "missing").2.2 rfl rfl

/-- C3 counterexample: in `var a; print a;` the name `a` is bound only at
top level, yet the resolver stores depth `some 0` on the `Variable` node
(the claim requires the depth to stay `none`); the scope pushed by
`Resolver::new` acts as the global scope and is found by the innermost-out
search. -/
theorem claim3_global_depth_cex :
    resolveStmts 9 Resolver.new [.varDecl "a" none, .print (.var "a" none)]
      = .ok (⟨[[("a", true)]], .none, .none⟩,
             [.varDecl "a" none, .print (.var "a" (some 0))])
    ∧ resolveStmts 9 Resolver.new [.varDecl "a" none, .print (.var "a" none)]
      ≠ .ok (⟨[[("a", true)]], .none, .none⟩,
             [.varDecl "a" none, .print (.var "a" none)]) :=
  ⟨rfl, fun h => nomatch h⟩

/-- C3 (amended): the resolver's scope stack includes a bottom scope for
the globals, so a name bound at top level resolves with depth `some d`
(`some 0` at a top-level use), not `none`; the depth is left `none` exactly
when the name is found in no scope on the stack (for example a name that
was never declared). -/
theorem claim3_global_depth (f : Nat) (name : String) :
    resolveStmts (f + 5) Resolver.new [.varDecl name none, .print (.var name none)]
      = .ok (⟨[[(name, true)]], .none, .none⟩,
             [.varDecl name none, .print (.var name (some 0))])
    ∧ resolveStmts (f + 3) Resolver.new [.print (.var name none)]
      = .ok (⟨[[]], .none, .none⟩, [.print (.var name none)]) := by
  constructor
  · simp [resolveStmts, resolveStmt, resolveExpr, Resolver.new, Resolver.declare,
      Resolver.define, Resolver.scopeDistance, aListLookup, aListInsert, modifyLast,
      myFindIdx, rBind]
  · simp [resolveStmts, resolveStmt, resolveExpr, Resolver.new, Resolver.scopeDistance,
      aListLookup, myFindIdx, rBind]

/-- C4: the expression entry chain expression → assignment → logic_or →
logic_and → equality …: the tokens of `x = 1` parse to an `Assign` node,
`a or b` parses to a `Logical` node, and a bare identifier parses to a
`Variable` primary — none is a parse error. -/
theorem claim4_precedence_chain :
    (pParse 30 (ParserSt.new "x = 1")).2
      = POut.ok (.assign "x" (.literal (.num ⟨1, 1⟩)) none)
    ∧ (pParse 30 (ParserSt.new "a or b")).2
      = POut.ok (.logical (.var "a" none) .kwOr (.var "b" none))
    ∧ (pParse 30 (ParserSt.new "foo")).2 = POut.ok (.var "foo" none) :=
  ⟨rfl, rfl, rfl⟩

/-- C5: running `return 1;` parses fine, the resolver rejects it, and
`Interpreter::run` reports the error tagged `ExitCode::CompilerError`
(whose own `i32` conversion is 65) — but the `Run` branch of `main`
ignores the tag and calls `process::exit(70)` for every `Interpreter::run`
error, so the process exits 70 where the claim (and the code's own
`ExitCode` mapping) say 65. -/
theorem claim5_run_exit_code :
    mainRunExit 99 "return 1;" = some (some 70)
    ∧ (pParseStatements 99 (ParserSt.new "return 1;")).2
        = POut.ok [.ret (some (.literal (.num ⟨1, 1⟩)))]
    ∧ (Interpreter.run 99 [.ret (some (.literal (.num ⟨1, 1⟩)))]).2
        = IRes.err (.message "Resolution error: Can't return from top-level code."
            .compilerError)
    ∧ ExitCode.toI32 .compilerError = 65 :=
  ⟨rfl, rfl, rfl, rfl⟩

/-- C6 counterexample: calling the `init`-less class `C` with one argument
does not raise "Expected 0 arguments but got 1." — it succeeds and returns
a fresh instance; and calling `Counter` (whose `init` takes `n`) with zero
arguments does not raise "Expected 1 arguments but got 0." — the body runs
with `n` unbound and fails with `UndefinedVariable("n")` instead.  The
class branch of `visit_call_expr` performs no arity check. -/
theorem claim6_class_arity_cex :
    (evaluate 20 stWithC (.call (.var "C" none) [.literal (.num ⟨1, 1⟩)])).2
      = IRes.ok (.inst ⟨classC, 0⟩)
    ∧ (evaluate 20 stWithC (.call (.var "C" none) [.literal (.num ⟨1, 1⟩)])).2
      ≠ IRes.err (.message "Expected 0 arguments but got 1." .runTimeError)
    ∧ (evaluate 20 stWithCounter (.call (.var "Counter" none) [])).2
      = IRes.err (.undefinedVariable "n")
    ∧ (evaluate 20 stWithCounter (.call (.var "Counter" none) [])).2
      ≠ IRes.err (.message "Expected 1 arguments but got 0." .runTimeError) := by
  have h1 : (evaluate 20 stWithC (.call (.var "C" none) [.literal (.num ⟨1, 1⟩)])).2
      = IRes.ok (.inst ⟨classC, 0⟩) := rfl
  have h3 : (evaluate 20 stWithCounter (.call (.var "Counter" none) [])).2
      = IRes.err (.undefinedVariable "n") := rfl
  refine ⟨h1, ?_, h3, ?_⟩
  · rw [h1]
    simp
  · rw [h3]
    simp

/-- C6 (amended): calling a class value never triggers the
"Expected N arguments but got M." check: a class without `init` called
with any argument list returns a fresh instance, and when `init` exists it
is invoked with the arguments zipped against its parameters, so extra
arguments are silently dropped (here `P(10, 20)` runs `init(n)` with
`n = 10`) and missing parameters are simply left unbound.  The arity check
quoted by the claim guards only the `Value::Function` branch. -/
theorem claim6_class_call_no_arity_check :
    (∀ (f : Nat) (st : Interpreter) (c : LoxClass) (args : List Value),
      LoxClass.findMethod c "init" = none →
      loxClassCall (f + 1) st c args =
        ({ st with fieldMaps := st.fieldMaps ++ [[]] },
         .ok (.inst ⟨c, st.fieldMaps.length⟩)))
    ∧ (evaluate 20 stWithPrinter
        (.call (.var "P" none) [.literal (.num ⟨10, 1⟩), .literal (.num ⟨20, 1⟩)])).2
      = IRes.ok (.inst ⟨printerClass, 0⟩)
    ∧ (evaluate 20 stWithPrinter
        (.call (.var "P" none) [.literal (.num ⟨10, 1⟩), .literal (.num ⟨20, 1⟩)])).1.output
      = ["10"] := by
  refine ⟨fun f st c args h => ?_, rfl, rfl⟩
  simp [loxClassCall, allocFields, h]

/-- C6 witness: the amended theorem's universal part applied to the
concrete `init`-less class `C` called with one argument. -/
theorem claim6_class_call_witness :
    loxClassCall 1 stWithC classC [.num ⟨5, 1⟩] =
      ({ stWithC with fieldMaps := stWithC.fieldMaps ++ [[]] },
       .ok (.inst ⟨classC, stWithC.fieldMaps.length⟩)) :=
  claim6_class_call_no_arity_check.1 0 stWithC classC [.num ⟨5, 1⟩] rfl

/-- C7: the resolver rejects every `return` while the function kind is
`None` with "Can't return from top-level code.", rejects a value-carrying
`return` while the kind is `Initializer` with "Can't return a value from an
initializer.", accepts a bare `return` there, and via `resolve_class` the
kind of a method named `init` is `Initializer`: a class whose `init`
returns a value is rejected, one whose `init` has a bare `return` resolves
successfully. -/
theorem claim7_return_rules :
    (∀ (f : Nat) (r : Resolver) (v : Option Expression),
      r.currentFunction = .none →
      resolveStmt (f + 1) r (.ret v)
        = .err (.message "Can't return from top-level code."))
    ∧ (∀ (f : Nat) (r : Resolver) (e : Expression),
        r.currentFunction = .initializer →
        resolveStmt (f + 1) r (.ret (some e))
          = .err (.message "Can't return a value from an initializer."))
    ∧ (∀ (f : Nat) (r : Resolver),
        r.currentFunction = .initializer →
        resolveStmt (f + 1) r (.ret none) = .ok (r, .ret none))
    ∧ resolveStmts 20 Resolver.new
        [.classDecl "C" none [.function "init" [] [.ret (some (.literal .nil))]]]
      = .err (.message "Can't return a value from an initializer.")
    ∧ resolveStmts 20 Resolver.new
        [.classDecl "C" none [.function "init" [] [.ret none]]]
      = .ok (⟨[[("C", true)]], .none, .none⟩,
             [.classDecl "C" none [.function "init" [] [.ret none]]]) := by
  refine ⟨fun f r v h => ?_, fun f r e h => ?_, fun f r h => ?_, rfl, rfl⟩
  · simp [resolveStmt, h]
  · simp [resolveStmt, h]
  · simp [resolveStmt, h]

/-- C7 witness: the top-level rule applied to the initial resolver state
and a bare `return`. -/
theorem claim7_return_rules_witness :
    resolveStmt 1 Resolver.new (.ret none)
      = .err (.message "Can't return from top-level code.") :=
  claim7_return_rules.1 0 Resolver.new none rfl

/-- C8: a value is falsey exactly when it is the boolean `false` or `nil`
(numbers including 0, strings including "", functions, classes and
instances are all truthy), and the `!` arm of `visit_unary_expr` returns
the boolean negation of the operand's truthiness for every operand value,
never an error. -/
theorem claim8_truthiness :
    (∀ v : Value, is_truthy v = false ↔ (v = .bool false ∨ v = .nil))
    ∧ (∀ v : Value, unaryOp .bang v = .ok (.bool (!is_truthy v))) := by
  constructor
  · intro v
    cases v <;> simp [is_truthy]
  · intro v
    cases v <;> simp [is_truthy, unaryOp]

/-- C9: whenever `LoxFunction::call` or `BoundMethod::call` returns (with
a value, via `return`, or with a runtime error — anything but the
embedding's fuel/panic artefacts), the interpreter's current environment
equals the one that was current before the call: both implementations
restore `old_env` before inspecting the body's result. -/
theorem claim9_environment_restored :
    (∀ (fuel : Nat) (st : Interpreter) (fn : LoxFunction) (args : List Value)
        (st' : Interpreter) (r : IRes Value),
      loxFunctionCall fuel st fn args = (st', r) → r ≠ .fuel → r ≠ .crash →
      st'.environment = st.environment)
    ∧ (∀ (fuel : Nat) (st : Interpreter) (m : BoundMethod) (args : List Value)
        (st' : Interpreter) (r : IRes Value),
      boundMethodCall fuel st m args = (st', r) → r ≠ .fuel → r ≠ .crash →
      st'.environment = st.environment) := by
  constructor
  · intro fuel st fn args st' r h h1 h2
    cases fuel with
    | zero =>
      rw [loxFunctionCall] at h
      cases h
      exact absurd rfl h1
    | succ f =>
      simp only [loxFunctionCall] at h
      split at h
      all_goals (cases h; rfl)
  · intro fuel st m args st' r h h1 h2
    cases fuel with
    | zero =>
      rw [boundMethodCall] at h
      cases h
      exact absurd rfl h1
    | succ f =>
      simp only [boundMethodCall] at h
      split at h
      all_goals first
        | (cases h; rfl)
        | (split at h <;> (cases h; rfl))

/-- C9 witness: a concrete completed call leaves the current environment
unchanged. -/
theorem claim9_environment_restored_witness :
    (loxFunctionCall 3 Interpreter.new idFunction []).1.environment
      = Interpreter.new.environment :=
  claim9_environment_restored.1 3 Interpreter.new idFunction []
    (loxFunctionCall 3 Interpreter.new idFunction []).1
    (loxFunctionCall 3 Interpreter.new idFunction []).2
    rfl (fun h => nomatch h) (fun h => nomatch h)

/-- C10: instance handles that share a field-map id (as every `Clone` of a
`LoxInstance` does, the id modelling the `Rc<RefCell<HashMap>>` pointer)
see each other's writes: a field written through one handle is immediately
readable with the same value through any other handle with the same id;
and the bound method produced by method lookup captures the receiving
instance itself — in particular the same shared field map. -/
theorem claim10_shared_fields :
    (∀ (st : Interpreter) (i j : LoxInstance) (name : String) (v : Value),
      j.fields = i.fields → i.fields < st.fieldMaps.length →
      LoxInstance.get (LoxInstance.set st i name v) j name = .ok v)
    ∧ (∀ (st : Interpreter) (i : LoxInstance) (name : String) (m : LoxFunction),
      fieldsGet st i.fields name = none → i.findMethod name = some m →
      LoxInstance.get st i name = .ok (.func (.bound ⟨m, i⟩))) := by
  constructor
  · intro st i j name v hshare hin
    cases hmm : st.fieldMaps[i.fields]? with
    | none =>
      rw [List.getElem?_eq_none_iff] at hmm
      omega
    | some mm =>
      have hget : fieldsGet (LoxInstance.set st i name v) j.fields name = some v := by
        simp [fieldsGet, LoxInstance.set, hshare, listModify_getElem_eq, hmm,
          aListInsert_lookup]
      simp [LoxInstance.get, hget]
  · intro st i name m h1 h2
    simp [LoxInstance.get, h1, h2]

/-- C10 witness: writing `x` through one handle of field map 0 and reading
it through another handle of the same map yields the written value. -/
theorem claim10_shared_fields_witness :
    LoxInstance.get (LoxInstance.set sharedFieldsSt ⟨classB, 0⟩ "x" .nil)
      ⟨classA, 0⟩ "x" = .ok .nil :=
  claim10_shared_fields.1 sharedFieldsSt ⟨classB, 0⟩ ⟨classA, 0⟩ "x" .nil rfl
    (by decide)

end LoxRs
